import Mathlib

/-!
Verification of the client/proxy request-response contract of the
news-search application.

The development shallowly embeds the two relevant source files:

* `src/services/newsApi.js` — the direct-call client (`fetchTopHeadlines`,
  `fetchNews`): validation, request construction, response classification.
* `api/news.js` — the serverless proxy `handler`: endpoint allow-list,
  parameter forwarding, credential header, status/body forwarding.

Modelling conventions:

* JS `Error` objects are represented by their message strings, because the
  source classifies errors exclusively through `error.message` substring
  checks (`error.message.includes('Failed to fetch')` ...).
* HTTP bodies are raw strings; `response.json()` is modelled by `jsonParse`
  and `res.json(x)` by `stringify` (a faithful model of `JSON.parse` /
  `JSON.stringify` restricted to integral numbers — floating point payloads
  are outside the model).
* The network is an explicit parameter: a `FetchOutcome` (a response, or a
  rejected promise carrying an error message) for a single call, or an
  oracle `UpstreamCall → FetchOutcome` for the proxy.
-/

mutual
/-- JSON values, mutually with lists of values and objects (ordered field
lists; `JSON.parse` keeps duplicate keys with last-wins lookup). Numbers are
modelled as integers. -/
inductive Json where
  | null : Json
  | bool (b : Bool) : Json
  | num (n : Int) : Json
  | str (s : String) : Json
  | arr (elems : JsonList) : Json
  | obj (fields : JsonObj) : Json

/-- Lists of JSON values (array elements, in order). -/
inductive JsonList where
  | nil : JsonList
  | cons (hd : Json) (tl : JsonList) : JsonList

/-- Ordered JSON object field lists. -/
inductive JsonObj where
  | nil : JsonObj
  | cons (key : String) (val : Json) (tl : JsonObj) : JsonObj
end

/-- The character `\x7b` (left brace), named to keep braces out of literals. -/
def lbrace : Char := Char.ofNat 123

/-- The character `\x7d` (right brace). -/
def rbrace : Char := Char.ofNat 125

/-- Lower-case hexadecimal digit character for a value below 16
(as produced by `JSON.stringify` in `\u00XX` escapes). -/
def hexDigitLower (n : Nat) : Char :=
  if n < 10 then Char.ofNat (48 + n) else Char.ofNat (87 + n)

/-- Upper-case hexadecimal digit character for a value below 16
(as produced by `encodeURIComponent` in `%XX` escapes). -/
def hexDigitUpper (n : Nat) : Char :=
  if n < 10 then Char.ofNat (48 + n) else Char.ofNat (55 + n)

/-- Numeric value of a hexadecimal digit character, either case. -/
def hexVal (c : Char) : Option Nat :=
  if 48 ≤ c.toNat ∧ c.toNat ≤ 57 then some (c.toNat - 48)
  else if 65 ≤ c.toNat ∧ c.toNat ≤ 70 then some (c.toNat - 55)
  else if 97 ≤ c.toNat ∧ c.toNat ≤ 102 then some (c.toNat - 87)
  else none

/-- String escaping as performed by `JSON.stringify`: `"` and `\` get a
backslash, the named control escapes are used where they exist, all other
control characters become `\u00XX` (lower-case hex), everything else is
emitted literally. -/
def escapeChar (c : Char) : List Char :=
  if c = '"' then ['\\', '"']
  else if c = '\\' then ['\\', '\\']
  else if c = '\n' then ['\\', 'n']
  else if c = '\r' then ['\\', 'r']
  else if c = '\t' then ['\\', 't']
  else if c.toNat = 8 then ['\\', 'b']
  else if c.toNat = 12 then ['\\', 'f']
  else if c.toNat < 32 then
    ['\\', 'u', '0', '0', hexDigitLower (c.toNat / 16), hexDigitLower (c.toNat % 16)]
  else [c]

/-- Serialize a JS string literal body (without the surrounding quotes). -/
def escapeString (cs : List Char) : List Char :=
  match cs with
  | [] => []
  | c :: rest => escapeChar c ++ escapeString rest

/-- Decimal digit characters of a natural number, most significant first;
structural recursion on a fuel bound so that it reduces definitionally. -/
def natCharsFuel : Nat → Nat → List Char
  | 0, _ => []
  | fuel + 1, n =>
    if n < 10 then [Char.ofNat (48 + n)]
    else natCharsFuel fuel (n / 10) ++ [Char.ofNat (48 + n % 10)]

/-- Decimal digit characters of a natural number, most significant first. -/
def natChars (n : Nat) : List Char := natCharsFuel (n + 1) n

/-- Decimal representation of an integer, as `JSON.stringify` prints it. -/
def intChars (n : Int) : List Char :=
  match n with
  | .ofNat m => natChars m
  | .negSucc m => '-' :: natChars (m + 1)

mutual
/-- `JSON.stringify` on a JSON value: compact form, no whitespace, exactly
as `res.json(data)` serializes the value in the proxy. -/
def stringifyChars : Json → List Char
  | .null => "null".data
  | .bool true => "true".data
  | .bool false => "false".data
  | .num n => intChars n
  | .str s => '"' :: (escapeString s.data ++ ['"'])
  | .arr elems => '[' :: (stringifyList elems ++ [']'])
  | .obj fields => lbrace :: (stringifyObj fields ++ [rbrace])

/-- Array elements, comma separated. -/
def stringifyList : JsonList → List Char
  | .nil => []
  | .cons j .nil => stringifyChars j
  | .cons j (.cons j2 tl) => stringifyChars j ++ ',' :: stringifyList (.cons j2 tl)

/-- Object fields, comma separated, keys quoted. -/
def stringifyObj : JsonObj → List Char
  | .nil => []
  | .cons k v .nil => '"' :: (escapeString k.data ++ ['"', ':']) ++ stringifyChars v
  | .cons k v (.cons k2 v2 tl) =>
      '"' :: (escapeString k.data ++ ['"', ':']) ++ stringifyChars v ++
        ',' :: stringifyObj (.cons k2 v2 tl)
end

/-- `JSON.stringify` as a `String → String` model. -/
def stringify (j : Json) : String := String.mk (stringifyChars j)

/-- JSON insignificant whitespace (space, tab, line feed, carriage return). -/
def isWsChar (c : Char) : Bool :=
  c.toNat = 32 ∨ c.toNat = 9 ∨ c.toNat = 10 ∨ c.toNat = 13

/-- Drop leading JSON whitespace. -/
def skipWs : List Char → List Char
  | [] => []
  | c :: rest => if isWsChar c then skipWs rest else c :: rest

/-- Decimal digit character test. -/
def isDigitChar (c : Char) : Bool := 48 ≤ c.toNat ∧ c.toNat ≤ 57

/-- Split off the maximal leading run of decimal digits. -/
def takeDigits : List Char → List Char × List Char
  | [] => ([], [])
  | c :: rest =>
    if isDigitChar c then
      let p := takeDigits rest
      (c :: p.1, p.2)
    else ([], c :: rest)

/-- Value of a digit string, most significant digit first. -/
def digitsToNat (cs : List Char) : Nat :=
  cs.foldl (fun acc c => 10 * acc + (c.toNat - 48)) 0

/-- Parse the body of a JSON string literal after the opening quote, up to
and consuming the closing quote; returns the decoded characters. Handles
the named escapes and `\uXXXX` for non-surrogate code points; surrogate
pairs (astral characters, which `JSON.parse` would combine) and lone
surrogates are outside the model. Raw control characters are rejected, as
`JSON.parse` does. -/
def parseStringBody : List Char → Option (List Char × List Char)
  | [] => none
  | c :: rest =>
    if c = '"' then some ([], rest)
    else if c = '\\' then
      match rest with
      | [] => none
      | e :: rest2 =>
        if e = '"' then (parseStringBody rest2).map (fun p => ('"' :: p.1, p.2))
        else if e = '\\' then (parseStringBody rest2).map (fun p => ('\\' :: p.1, p.2))
        else if e = '/' then (parseStringBody rest2).map (fun p => ('/' :: p.1, p.2))
        else if e = 'n' then (parseStringBody rest2).map (fun p => ('\n' :: p.1, p.2))
        else if e = 't' then (parseStringBody rest2).map (fun p => ('\t' :: p.1, p.2))
        else if e = 'r' then (parseStringBody rest2).map (fun p => ('\r' :: p.1, p.2))
        else if e = 'b' then
          (parseStringBody rest2).map (fun p => (Char.ofNat 8 :: p.1, p.2))
        else if e = 'f' then
          (parseStringBody rest2).map (fun p => (Char.ofNat 12 :: p.1, p.2))
        else if e = 'u' then
          match rest2 with
          | h1 :: h2 :: h3 :: h4 :: rest3 =>
            match hexVal h1, hexVal h2, hexVal h3, hexVal h4 with
            | some a, some b, some c3, some d =>
              let n := ((a * 16 + b) * 16 + c3) * 16 + d
              if n < 55296 then
                (parseStringBody rest3).map (fun p => (Char.ofNat n :: p.1, p.2))
              else if 57343 < n then
                (parseStringBody rest3).map (fun p => (Char.ofNat n :: p.1, p.2))
              else none
            | _, _, _, _ => none
          | _ => none
        else none
    else if c.toNat < 32 then none
    else (parseStringBody rest).map (fun p => (c :: p.1, p.2))

/-- Does the remainder start a fraction or exponent part (which would make
the number non-integral, outside this model)? -/
def startsExp : List Char → Bool
  | c :: _ => c == '.' || c == 'e' || c == 'E'
  | [] => false

/-- Parse a JSON number from a digit run (sign already consumed). Rejects
leading zeros as `JSON.parse` does; a following `.`/`e`/`E` would start a
non-integral number, which is outside this model, so it is rejected. -/
def parseNumber (neg : Bool) (s : List Char) : Option (Json × List Char) :=
  let p := takeDigits s
  match p.1 with
  | [] => none
  | d :: ds =>
    if d = '0' ∧ ds ≠ [] then none
    else if startsExp p.2 then none
    else
      let v : Int := digitsToNat p.1
      some (.num (if neg then -v else v), p.2)

mutual
/-- Recursive-descent model of `JSON.parse` for a single value, with fuel
for termination; returns the value and the unconsumed remainder. -/
def parseVal : Nat → List Char → Option (Json × List Char)
  | 0, _ => none
  | fuel + 1, s =>
    match skipWs s with
    | [] => none
    | c :: rest =>
      if c = 'n' then
        match rest with
        | 'u' :: 'l' :: 'l' :: r => some (.null, r)
        | _ => none
      else if c = 't' then
        match rest with
        | 'r' :: 'u' :: 'e' :: r => some (.bool true, r)
        | _ => none
      else if c = 'f' then
        match rest with
        | 'a' :: 'l' :: 's' :: 'e' :: r => some (.bool false, r)
        | _ => none
      else if c = '"' then
        (parseStringBody rest).map (fun p => (.str (String.mk p.1), p.2))
      else if c = '[' then
        match skipWs rest with
        | c2 :: r =>
          if c2 = ']' then some (.arr .nil, r)
          else (parseElems fuel (c2 :: r)).map (fun p => (.arr p.1, p.2))
        | [] => (parseElems fuel []).map (fun p => (.arr p.1, p.2))
      else if c = lbrace then
        match skipWs rest with
        | c2 :: r =>
          if c2 = rbrace then some (.obj .nil, r)
          else parseFields fuel (c2 :: r)
        | [] => none
      else if c = '-' then parseNumber true rest
      else if isDigitChar c then parseNumber false (c :: rest)
      else none

/-- Parse one or more comma-separated array elements up to and consuming
the closing bracket. -/
def parseElems : Nat → List Char → Option (JsonList × List Char)
  | 0, _ => none
  | fuel + 1, s =>
    match parseVal fuel s with
    | none => none
    | some (j, r) =>
      match skipWs r with
      | c :: r2 =>
        if c = ',' then
          match parseElems fuel r2 with
          | none => none
          | some (tl, r3) => some (.cons j tl, r3)
        else if c = ']' then some (.cons j .nil, r2)
        else none
      | [] => none

/-- Parse one or more comma-separated object fields up to and consuming
the closing brace; the result wraps the field list in `Json.obj`. -/
def parseFields : Nat → List Char → Option (Json × List Char)
  | 0, _ => none
  | fuel + 1, s =>
    match skipWs s with
    | c :: rest =>
      if c = '"' then
        match parseStringBody rest with
        | none => none
        | some (k, r) =>
          match skipWs r with
          | c1 :: r2 =>
            if c1 = ':' then
              match parseVal fuel r2 with
              | none => none
              | some (v, r3) =>
                match skipWs r3 with
                | c2 :: r4 =>
                  if c2 = ',' then
                    match parseFields fuel r4 with
                    | some (.obj tl, r5) => some (.obj (.cons (String.mk k) v tl), r5)
                    | _ => none
                  else if c2 = rbrace then
                    some (.obj (.cons (String.mk k) v .nil), r4)
                  else none
                | [] => none
            else none
          | [] => none
      else none
    | [] => none
end

/-- `JSON.parse` on a whole input: parse one value and require only
whitespace to remain, as `JSON.parse` does. -/
def jsonParse (s : String) : Option Json :=
  match parseVal (2 * s.data.length + 2) s.data with
  | some (j, rest) => if skipWs rest = [] then some j else none
  | none => none

/-- UTF-8 encoding of a Unicode code point, as a list of byte values. -/
def utf8Bytes (n : Nat) : List Nat :=
  if n < 128 then [n]
  else if n < 2048 then [192 + n / 64, 128 + n % 64]
  else if n < 65536 then [224 + n / 4096, 128 + n / 64 % 64, 128 + n % 64]
  else [240 + n / 262144, 128 + n / 4096 % 64, 128 + n / 64 % 64, 128 + n % 64]

/-- Code points left unescaped by `encodeURIComponent`: ASCII letters,
digits, and `- _ . ! ~ * ' ( )`. -/
def isUnreservedN (n : Nat) : Bool :=
  (65 ≤ n ∧ n ≤ 90) ∨ (97 ≤ n ∧ n ≤ 122) ∨ (48 ≤ n ∧ n ≤ 57) ∨
    n = 45 ∨ n = 95 ∨ n = 46 ∨ n = 33 ∨ n = 126 ∨ n = 42 ∨ n = 39 ∨ n = 40 ∨ n = 41

/-- Percent-escape of one byte value: `%` followed by two upper-case hex
digits, as `encodeURIComponent` emits. -/
def percentByte (b : Nat) : List Char :=
  ['%', hexDigitUpper (b / 16), hexDigitUpper (b % 16)]

/-- `encodeURIComponent` on one character: unreserved characters pass
through; everything else becomes the percent-escapes of its UTF-8 bytes.
(Lone surrogates, on which the JS builtin throws, cannot occur in a Lean
`Char`.) -/
def encodeChar (c : Char) : List Char :=
  if isUnreservedN c.toNat then [c]
  else (utf8Bytes c.toNat).flatMap percentByte

/-- `encodeURIComponent` over a character list. -/
def encodeChars (cs : List Char) : List Char :=
  match cs with
  | [] => []
  | c :: rest => encodeChar c ++ encodeChars rest

/-- The `encodeURIComponent` builtin, modelled over Unicode scalar values. -/
def encodeURIComponent (s : String) : String := String.mk (encodeChars s.data)

/-- Concatenated UTF-8 bytes of a character list (the byte image of a
string under UTF-8). -/
def utf8Flat (cs : List Char) : List Nat :=
  cs.flatMap (fun c => utf8Bytes c.toNat)

/-- First phase of `decodeURIComponent`: replace each `%XX` escape by its
byte and each literal character by its code point. Literal characters are
required to be ASCII, which holds for every `encodeURIComponent` output;
the phase fails on a malformed escape. -/
def percentDecodeBytes : List Char → Option (List Nat)
  | [] => some []
  | c :: rest =>
    if c = '%' then
      match rest with
      | h :: l :: rest2 =>
        match hexVal h, hexVal l with
        | some hv, some lv =>
          (percentDecodeBytes rest2).map (fun bs => (hv * 16 + lv) :: bs)
        | _, _ => none
      | _ => none
    else if c.toNat < 128 then
      (percentDecodeBytes rest).map (fun bs => c.toNat :: bs)
    else none

/-- Code point of a two-byte UTF-8 sequence, if valid (in range, with a
continuation byte, not overlong). -/
def utf8B2 (b b1 : Nat) : Option Nat :=
  if 192 ≤ b ∧ b < 224 ∧ 128 ≤ b1 ∧ b1 < 192 ∧ 128 ≤ (b - 192) * 64 + (b1 - 128) then
    some ((b - 192) * 64 + (b1 - 128))
  else none

/-- Code point of a three-byte UTF-8 sequence, if valid (in range, with
continuation bytes, not overlong, not a surrogate). -/
def utf8B3 (b b1 b2 : Nat) : Option Nat :=
  if 224 ≤ b ∧ b < 240 ∧ 128 ≤ b1 ∧ b1 < 192 ∧ 128 ≤ b2 ∧ b2 < 192 ∧
      2048 ≤ (b - 224) * 4096 + (b1 - 128) * 64 + (b2 - 128) ∧
      ((b - 224) * 4096 + (b1 - 128) * 64 + (b2 - 128) < 55296 ∨
        57343 < (b - 224) * 4096 + (b1 - 128) * 64 + (b2 - 128)) then
    some ((b - 224) * 4096 + (b1 - 128) * 64 + (b2 - 128))
  else none

/-- Code point of a four-byte UTF-8 sequence, if valid (in range, with
continuation bytes, not overlong, below the Unicode maximum). -/
def utf8B4 (b b1 b2 b3 : Nat) : Option Nat :=
  if 240 ≤ b ∧ b < 248 ∧ 128 ≤ b1 ∧ b1 < 192 ∧ 128 ≤ b2 ∧ b2 < 192 ∧
      128 ≤ b3 ∧ b3 < 192 ∧
      65536 ≤ (b - 240) * 262144 + (b1 - 128) * 4096 + (b2 - 128) * 64 + (b3 - 128) ∧
      (b - 240) * 262144 + (b1 - 128) * 4096 + (b2 - 128) * 64 + (b3 - 128) < 1114112 then
    some ((b - 240) * 262144 + (b1 - 128) * 4096 + (b2 - 128) * 64 + (b3 - 128))
  else none

/-- Strict UTF-8 decoder over byte values, with fuel for termination (one
unit per decoded character): rejects overlong encodings, surrogate code
points, out-of-range values, and truncated sequences. -/
def utf8DecodeFuel : Nat → List Nat → Option (List Char)
  | _, [] => some []
  | 0, _ :: _ => none
  | fuel + 1, b :: rest =>
    if b < 128 then (utf8DecodeFuel fuel rest).map (fun cs => Char.ofNat b :: cs)
    else if b < 224 then
      match rest with
      | b1 :: rest1 =>
        match utf8B2 b b1 with
        | some n => (utf8DecodeFuel fuel rest1).map (fun cs => Char.ofNat n :: cs)
        | none => none
      | [] => none
    else if b < 240 then
      match rest with
      | b1 :: b2 :: rest2 =>
        match utf8B3 b b1 b2 with
        | some n => (utf8DecodeFuel fuel rest2).map (fun cs => Char.ofNat n :: cs)
        | none => none
      | _ => none
    else
      match rest with
      | b1 :: b2 :: b3 :: rest3 =>
        match utf8B4 b b1 b2 b3 with
        | some n => (utf8DecodeFuel fuel rest3).map (fun cs => Char.ofNat n :: cs)
        | none => none
      | _ => none

/-- Strict UTF-8 decoder over a whole byte list (the fuel bound of one
unit per byte is always sufficient). -/
def utf8DecodeList (bs : List Nat) : Option (List Char) :=
  utf8DecodeFuel bs.length bs

/-- The `decodeURIComponent` builtin, modelled over inputs whose literal
characters are ASCII (true of every `encodeURIComponent` output). -/
def decodeURIComponent (s : String) : Option String :=
  (percentDecodeBytes s.data).bind
    (fun bs => (utf8DecodeList bs).map (fun cs => String.mk cs))

/-- Substring containment, the semantics of JS `String.prototype.includes`. -/
def includesSub (s pat : String) : Bool :=
  s.data.tails.any (fun t => pat.data.isPrefixOf t)

/-- JS whitespace removed by `String.prototype.trim`: the ASCII whitespace
characters plus no-break space, BOM, and the Unicode line/paragraph
separators (the common cases of the WhiteSpace/LineTerminator productions). -/
def isJsWs (c : Char) : Bool :=
  c.toNat = 32 ∨ c.toNat = 9 ∨ c.toNat = 10 ∨ c.toNat = 13 ∨ c.toNat = 11 ∨
    c.toNat = 12 ∨ c.toNat = 160 ∨ c.toNat = 65279 ∨ c.toNat = 8232 ∨ c.toNat = 8233

/-- JS `String.prototype.trim`. -/
def jsTrim (s : String) : String :=
  String.mk ((s.data.dropWhile isJsWs).reverse.dropWhile isJsWs |>.reverse)

/- ------------------------------------------------------------------
URL query extraction (used only in theorem statements, to read the query
parameters back off the URL strings the source builds by concatenation).
------------------------------------------------------------------ -/

/-- Characters after the first `?` of a URL string. -/
def queryPart : List Char → List Char
  | [] => []
  | c :: rest => if c = '?' then rest else queryPart rest

/-- Split a character list on `&`. -/
def splitAmp : List Char → List (List Char)
  | [] => [[]]
  | c :: rest =>
    if c = '&' then [] :: splitAmp rest
    else
      match splitAmp rest with
      | [] => [[c]]
      | g :: gs => (c :: g) :: gs

/-- Split one `key=value` group at its first `=`. -/
def keyVal (cs : List Char) : String × String :=
  match cs with
  | [] => ("", "")
  | c :: rest =>
    if c = '=' then ("", String.mk rest)
    else
      let p := keyVal rest
      (String.mk (c :: p.1.data), p.2)

/-- The query parameters of a URL string, in order, values left encoded. -/
def urlParams (url : String) : List (String × String) :=
  (splitAmp (queryPart url.data)).map keyVal

/- ------------------------------------------------------------------
Direct-call client: src/services/newsApi.js.
------------------------------------------------------------------ -/

/-- `BASE_URL` from `src/services/newsApi.js`. -/
def BASE_URL : String := "https://newsapi.org/v2"

/-- Message thrown when `VITE_NEWS_API_KEY` is absent. -/
def missingKeyMsg : String :=
  "API key is missing. Please configure VITE_NEWS_API_KEY in your .env file"

/-- Message thrown on an empty search topic. -/
def emptyTopicMsg : String := "Search topic cannot be empty"

/-- Message thrown on an upstream 401. -/
def invalidKeyMsg : String :=
  "Invalid API key. Please check your NewsAPI.org credentials"

/-- Message thrown on an upstream 429. -/
def rateLimitMsg : String :=
  "Rate limit exceeded. Please try again later (100 requests/day limit)"

/-- Message substituted by the catch block for network-level failures. -/
def networkErrMsg : String := "Network error. Please check your internet connection"

/-- Fallback message when the body has `status:"error"` but no usable
`message` field. -/
def genericApiErrMsg : String := "An error occurred while fetching news"

/-- Representative message of the exception `response.json()` raises on a
non-JSON body; the concrete runtime text is environment specific and no
theorem depends on it. -/
def jsonSyntaxErrMsg : String := "Unexpected token in JSON"

/-- Representative message of the TypeError that the property access
`data.status` raises when the parsed 2xx body is `null` (JS property
access throws on a null receiver); the concrete runtime text is
environment specific and no theorem depends on it. -/
def nullAccessErrMsg : String := "Cannot read properties of null"

/-- An HTTP response as the client observes it: status, status text, raw
body. -/
structure HttpResp where
  status : Nat
  statusText : String
  body : String

/-- Outcome of one `fetch` call: a response, or a rejected promise whose
error carries a message. -/
inductive FetchOutcome where
  | resp (r : HttpResp)
  | err (msg : String)

/-- JS truthiness of the optional environment value `API_KEY`
(`undefined` and the empty string are falsy). -/
def keyFalsy : Option String → Bool
  | none => true
  | some s => s = ""

/-- JS truthiness of a JSON value (for `!data.articles`); an absent field
(`undefined`) is falsy. -/
def jsFalsy : Option Json → Bool
  | none => true
  | some .null => true
  | some (.bool b) => !b
  | some (.num n) => n = 0
  | some (.str s) => s = ""
  | some (.arr _) => false
  | some (.obj _) => false

/-- Length of a JSON array's element list. -/
def JsonList.length : JsonList → Nat
  | .nil => 0
  | .cons _ tl => tl.length + 1

/-- JS `.length` of a JSON value, where it exists (arrays and strings). -/
def jsLength : Option Json → Option Nat
  | some (.arr xs) => some xs.length
  | some (.str s) => some s.data.length
  | _ => none

/-- Last-wins lookup of an object field, `undefined` (`none`) otherwise —
property access `data.key` on the parsed JSON value. -/
def objLookup : JsonObj → String → Option Json
  | .nil, _ => none
  | .cons key v tl, k =>
    match objLookup tl k with
    | some r => some r
    | none => if key = k then some v else none

/-- Property access `data.k` on a non-null JSON value: the field (last
wins) on an object, `undefined` (`none`) on any other non-null receiver
(numbers, strings, booleans and arrays autobox in JS and yield
`undefined` for absent properties). A null receiver instead throws a
TypeError in JS; that case is handled where it occurs, in
`classifyOutcome`, and this function is only ever applied to non-null
values there. -/
def jsonGet (j : Json) (k : String) : Option Json :=
  match j with
  | .obj fs => objLookup fs k
  | _ => none

/-- JS `String(x)` on a JSON value (for `new Error(data.message)` when the
`message` field is not a string); array elements join by commas with
`null` shown as empty, objects print as `[object Object]`. -/
def jsToString (j : Json) : String :=
  match j with
  | .null => "null"
  | .bool true => "true"
  | .bool false => "false"
  | .num n => String.mk (intChars n)
  | .str s => s
  | .arr xs => String.mk (jsArrJoin xs)
  | .obj _ => "[object Object]"
where
  /-- `Array.prototype.toString`: elements joined by commas. -/
  jsArrJoin : JsonList → List Char
    | .nil => []
    | .cons j .nil => jsElemChars j
    | .cons j (.cons j2 tl) => jsElemChars j ++ ',' :: jsArrJoin (.cons j2 tl)
  /-- One joined element; `null` renders empty inside a join. -/
  jsElemChars : Json → List Char
    | .null => []
    | j => (jsToString j).data

/-- Does the parsed body carry the application-level error indicator
(`data.status === 'error'`)? -/
def errStatus (data : Json) : Bool :=
  match jsonGet data "status" with
  | some (.str s) => s = "error"
  | _ => false

/-- The message thrown for an application-level error:
`data.message || 'An error occurred while fetching news'`. -/
def errMessage (data : Json) : String :=
  match jsonGet data "message" with
  | none => genericApiErrMsg
  | some m => if jsFalsy (some m) then genericApiErrMsg else jsToString m

/-- The shared try-block of `fetchNews` and `fetchTopHeadlines`
(lines 27–56 and 86–115 of `src/services/newsApi.js` are identical):
HTTP status classification, `response.json()`, application-level error
check, and the empty/absent-articles fallback. `response.ok` is status in
[200, 300). A 2xx body that parses to `null` makes the JS access
`data.status` throw a TypeError, which the catch block re-throws
unchanged (its message contains neither classification substring). -/
def classifyOutcome (world : FetchOutcome) : Except String Json :=
  match world with
  | .err msg => .error msg
  | .resp r =>
    if ¬ (200 ≤ r.status ∧ r.status < 300) then
      if r.status = 401 then .error invalidKeyMsg
      else if r.status = 429 then .error rateLimitMsg
      else .error ("API error: " ++ toString r.status ++ " " ++ r.statusText)
    else
      match jsonParse r.body with
      | none => .error jsonSyntaxErrMsg
      | some .null => .error nullAccessErrMsg
      | some data =>
        if errStatus data then .error (errMessage data)
        else
          let articles := jsonGet data "articles"
          if jsFalsy articles || jsLength articles == some 0 then .ok (.arr .nil)
          else .ok (articles.getD .null)

/-- The catch block shared by both client functions: an error whose message
contains `Failed to fetch` or `NetworkError` is replaced by the fixed
network-error message; every other error is re-thrown unchanged. -/
def catchNetwork (r : Except String Json) : Except String Json :=
  match r with
  | .ok v => .ok v
  | .error m =>
    if includesSub m "Failed to fetch" || includesSub m "NetworkError" then
      .error networkErrMsg
    else .error m

/-- Result of one client call: the value returned or the error message
thrown, whether `fetch` was invoked, and the URL passed to it. -/
structure CallResult where
  result : Except String Json
  calledNetwork : Bool
  requestUrl : Option String

/-- The URL `fetchNews` builds (line 84 of `src/services/newsApi.js`). -/
def fetchNewsUrl (topic : String) : String :=
  BASE_URL ++ "/everything?q=" ++ encodeURIComponent topic ++
    "&pageSize=10&sortBy=publishedAt&language=en"

/-- The URL `fetchTopHeadlines` builds (line 25). `fromIso` stands for
`yesterday.toISOString()`, the ISO timestamp of 24 hours before the current
time, which is real-time dependent and therefore a parameter here. -/
def topHeadlinesUrl (fromIso : String) : String :=
  BASE_URL ++ "/top-headlines?country=us&pageSize=10&from=" ++ fromIso

/-- `fetchNews` from `src/services/newsApi.js`: key check, topic
validation, then one `fetch` whose outcome is classified by the shared
try/catch logic. -/
def fetchNews (apiKey : Option String) (topic : String) (world : FetchOutcome) :
    CallResult :=
  if keyFalsy apiKey then ⟨.error missingKeyMsg, false, none⟩
  else if topic == "" || jsTrim topic == "" then ⟨.error emptyTopicMsg, false, none⟩
  else ⟨catchNetwork (classifyOutcome world), true, some (fetchNewsUrl topic)⟩

/-- `fetchTopHeadlines` from `src/services/newsApi.js`: key check, then one
`fetch` whose outcome is classified by the shared try/catch logic. -/
def fetchTopHeadlines (apiKey : Option String) (fromIso : String)
    (world : FetchOutcome) : CallResult :=
  if keyFalsy apiKey then ⟨.error missingKeyMsg, false, none⟩
  else ⟨catchNetwork (classifyOutcome world), true, some (topHeadlinesUrl fromIso)⟩

/- ------------------------------------------------------------------
Serverless proxy: api/news.js.
------------------------------------------------------------------ -/

/-- One outbound call the proxy makes: the upstream path segment, the
forwarded query parameters in order, and the `X-Api-Key` header value
(`none` models an unset `process.env.VITE_NEWS_API_KEY`). -/
structure UpstreamCall where
  endpoint : String
  params : List (String × String)
  apiKeyHeader : Option String
deriving DecidableEq

/-- What the proxy sends back: status, body, plus the log of upstream calls
it made (used to state "no upstream call"). -/
structure ProxyResult where
  status : Nat
  body : String
  calls : List UpstreamCall
deriving DecidableEq

/-- `validEndpoints` from `api/news.js`. -/
def validEndpoints : List String := ["top-headlines", "everything"]

/-- The proxy `handler` from `api/news.js`. The incoming query is the
decoded `req.query` as an ordered key/value list; `endpoint` is destructured
out of it and the rest is appended to the upstream URL. On a response the
body is parsed (`response.json()`) and re-serialized (`res.json(data)`);
the catch block turns a rejected fetch or an unparseable body into a 500
with an error payload (the runtime text of a JSON parse exception is
environment specific, represented by `jsonSyntaxErrMsg`). -/
def handler (method : String) (query : List (String × String))
    (envKey : Option String) (upstream : UpstreamCall → FetchOutcome) : ProxyResult :=
  if method == "OPTIONS" then ⟨200, "", []⟩
  else if method != "GET" then
    ⟨405, stringify (.obj (.cons "error" (.str "Method not allowed") .nil)), []⟩
  else
    let endpoint := query.lookup "endpoint"
    let params := query.filter (fun p => p.1 ≠ "endpoint")
    let valid : Bool := match endpoint with
      | some e => validEndpoints.contains e
      | none => false
    if ¬ valid then
      ⟨400, stringify (.obj (.cons "error" (.str "Invalid endpoint") .nil)), []⟩
    else
      let call : UpstreamCall := ⟨endpoint.getD "", params, envKey⟩
      match upstream call with
      | .resp r =>
        match jsonParse r.body with
        | some data => ⟨r.status, stringify data, [call]⟩
        | none =>
          ⟨500, stringify (.obj (.cons "error" (.str "Failed to fetch news")
              (.cons "message" (.str jsonSyntaxErrMsg) .nil))), [call]⟩
      | .err msg =>
        ⟨500, stringify (.obj (.cons "error" (.str "Failed to fetch news")
            (.cons "message" (.str msg) .nil))), [call]⟩

/-- Modelled from the spec: the proxied transport strategy of the Transport
Adapter (section 4.2) is not present under `src/` — the client there calls
the upstream host directly, and only `VERCEL-DEPLOYMENT.md` and the spec
describe the proxied variant. Per the spec it sends `endpoint` plus the
same query parameters the direct strategy would send, omits the credential,
and applies the identical response normalization. `reasonPhrase` supplies
the HTTP reason phrase the serving stack attaches to the proxy's numeric
status (the spec leaves it to the HTTP layer). -/
def fetchNewsProxied (topic : String) (envKey : Option String)
    (upstream : UpstreamCall → FetchOutcome) (reasonPhrase : Nat → String) :
    CallResult :=
  if topic == "" || jsTrim topic == "" then ⟨.error emptyTopicMsg, false, none⟩
  else
    let pr := handler "GET"
      [("endpoint", "everything"), ("q", topic), ("pageSize", "10"),
        ("sortBy", "publishedAt"), ("language", "en")] envKey upstream
    ⟨catchNetwork (classifyOutcome (.resp ⟨pr.status, reasonPhrase pr.status, pr.body⟩)),
      true, some "/api/news"⟩

/-- Modelled from the spec: the proxied TopHeadlines strategy of the
Transport Adapter (section 4.2), likewise absent under `src/`. Per the
spec it sends `endpoint` plus the same query parameters the direct
strategy would send — `country`, `pageSize` and the rolling 24-hour
`from` timestamp — omits the credential, and applies the identical
response normalization; `reasonPhrase` as in `fetchNewsProxied`. -/
def fetchTopHeadlinesProxied (fromIso : String) (envKey : Option String)
    (upstream : UpstreamCall → FetchOutcome) (reasonPhrase : Nat → String) :
    CallResult :=
  let pr := handler "GET"
    [("endpoint", "top-headlines"), ("country", "us"), ("pageSize", "10"),
      ("from", fromIso)] envKey upstream
  ⟨catchNetwork (classifyOutcome (.resp ⟨pr.status, reasonPhrase pr.status, pr.body⟩)),
    true, some "/api/news"⟩

mutual
/-- Structural size of a JSON value, used as a fuel bound when parsing its
serialization. -/
def jsize : Json → Nat
  | .null => 1
  | .bool _ => 1
  | .num _ => 1
  | .str _ => 1
  | .arr xs => jsizeL xs + 1
  | .obj fs => jsizeO fs + 1

/-- Size of an element list. -/
def jsizeL : JsonList → Nat
  | .nil => 1
  | .cons j tl => jsize j + jsizeL tl + 1

/-- Size of a field list. -/
def jsizeO : JsonObj → Nat
  | .nil => 1
  | .cons _ v tl => jsize v + jsizeO tl + 1
end

/-- Continuations after which a serialized JSON number can stand: end of
input or a structural delimiter (the only contexts `stringifyChars`
produces). -/
def jsonDelim : List Char → Prop
  | [] => True
  | c :: _ => c = ',' ∨ c = ']' ∨ c = rbrace

/- ------------------------------------------------------------------
Helper lemmas.
------------------------------------------------------------------ -/

theorem jsTrim_empty : jsTrim "" = "" := rfl

theorem topic_check_false (topic : String) (ht : jsTrim topic ≠ "") :
    (topic == "" || jsTrim topic == "") = false := by
  have h1 : topic ≠ "" := by
    intro h
    subst h
    exact ht jsTrim_empty
  simp [h1, ht]

theorem classify_401 (st body : String) :
    classifyOutcome (.resp ⟨401, st, body⟩) = .error invalidKeyMsg := by
  norm_num [classifyOutcome]

theorem classify_429 (st body : String) :
    classifyOutcome (.resp ⟨429, st, body⟩) = .error rateLimitMsg := by
  norm_num [classifyOutcome]

theorem classify_2xx (s : Nat) (st b : String) (data : Json)
    (h2 : 200 ≤ s ∧ s < 300) (hp : jsonParse b = some data)
    (hn : data ≠ Json.null) :
    classifyOutcome (.resp ⟨s, st, b⟩) =
      (if errStatus data then .error (errMessage data)
        else if jsFalsy (jsonGet data "articles") ||
            jsLength (jsonGet data "articles") == some 0 then .ok (.arr .nil)
        else .ok ((jsonGet data "articles").getD .null)) := by
  simp only [classifyOutcome]
  rw [if_neg (not_not_intro h2), hp]
  cases data with
  | null => exact absurd rfl hn
  | bool b1 => rfl
  | num n1 => rfl
  | str s1 => rfl
  | arr xs => rfl
  | obj fs => rfl

theorem classify_2xx_null (s : Nat) (st b : String)
    (h2 : 200 ≤ s ∧ s < 300) (hp : jsonParse b = some Json.null) :
    classifyOutcome (.resp ⟨s, st, b⟩) = .error nullAccessErrMsg := by
  simp only [classifyOutcome]
  rw [if_neg (not_not_intro h2), hp]

theorem catchNetwork_invalidKey :
    catchNetwork (.error invalidKeyMsg) = .error invalidKeyMsg := rfl

theorem catchNetwork_rateLimit :
    catchNetwork (.error rateLimitMsg) = .error rateLimitMsg := rfl

theorem splitAmp_noamp (cs : List Char) (h : ∀ c ∈ cs, c ≠ '&') :
    splitAmp cs = [cs] := by
  induction cs with
  | nil => rfl
  | cons c rest ih =>
    have hc : c ≠ '&' := h c (by simp)
    have hr := ih (fun x hx => h x (by simp [hx]))
    simp [splitAmp, hc, hr]

theorem splitAmp_amp (cs ds : List Char) (h : ∀ c ∈ cs, c ≠ '&') :
    splitAmp (cs ++ '&' :: ds) = cs :: splitAmp ds := by
  induction cs with
  | nil => simp [splitAmp]
  | cons c rest ih =>
    have hc : c ≠ '&' := h c (by simp)
    have hr := ih (fun x hx => h x (by simp [hx]))
    simp [splitAmp, hc, hr]

theorem keyVal_split (ks vs : List Char) (h : ∀ c ∈ ks, c ≠ '=') :
    keyVal (ks ++ '=' :: vs) = (String.mk ks, String.mk vs) := by
  induction ks with
  | nil => simp [keyVal]
  | cons c rest ih =>
    have hc : c ≠ '=' := h c (by simp)
    have hr := ih (fun x hx => h x (by simp [hx]))
    simp [keyVal, hc, hr]

theorem handler_valid_shape (query : List (String × String))
    (envKey : Option String) (upstream : UpstreamCall → FetchOutcome)
    (e : String) (he : query.lookup "endpoint" = some e)
    (hv : validEndpoints.contains e = true) :
    handler "GET" query envKey upstream =
      (match upstream ⟨e, query.filter (fun p => p.1 ≠ "endpoint"), envKey⟩ with
        | .resp r =>
          match jsonParse r.body with
          | some data =>
            ⟨r.status, stringify data,
              [⟨e, query.filter (fun p => p.1 ≠ "endpoint"), envKey⟩]⟩
          | none =>
            ⟨500, stringify (.obj (.cons "error" (.str "Failed to fetch news")
                (.cons "message" (.str jsonSyntaxErrMsg) .nil))),
              [⟨e, query.filter (fun p => p.1 ≠ "endpoint"), envKey⟩]⟩
        | .err msg =>
          ⟨500, stringify (.obj (.cons "error" (.str "Failed to fetch news")
              (.cons "message" (.str msg) .nil))),
            [⟨e, query.filter (fun p => p.1 ≠ "endpoint"), envKey⟩]⟩) := by
  have h2 : e ∈ validEndpoints := by simpa using hv
  unfold handler
  simp [he, h2]

/- ------------------------------------------------------------------
C8: empty-topic validation.
------------------------------------------------------------------ -/

/-- C8: for every topic string that is empty or whitespace-only after
trimming, `fetchNews` (Topic-mode search) fails with the validation error
and performs no network call — the check runs before any fetch. (The key
check precedes it in the source, so a configured key is assumed.) -/
theorem empty_topic_validation (apiKey : Option String) (topic : String)
    (world : FetchOutcome) (hk : keyFalsy apiKey = false)
    (ht : jsTrim topic = "") :
    fetchNews apiKey topic world =
      ⟨.error emptyTopicMsg, false, none⟩ := by
  simp [fetchNews, hk, ht]

/-- Witness for C8 at a whitespace-only topic. -/
theorem empty_topic_validation_witness :
    fetchNews (some "key") "   " (.err "never reached") =
      ⟨.error emptyTopicMsg, false, none⟩ :=
  empty_topic_validation (some "key") "   " (.err "never reached")
    (by decide) (by decide)

/- ------------------------------------------------------------------
C9: 401 → InvalidCredential, 429 → RateLimited.
------------------------------------------------------------------ -/

/-- C9: for every upstream response with status 401, both `fetchNews` and
`fetchTopHeadlines` fail with the invalid-credential message, and for 429
with the rate-limit message, regardless of status text and of body content
(the body is never consulted on a non-2xx status). -/
theorem auth_and_rate_limit_classification (apiKey : Option String)
    (topic fromIso statusText body : String)
    (hk : keyFalsy apiKey = false) (ht : jsTrim topic ≠ "") :
    (fetchNews apiKey topic (.resp ⟨401, statusText, body⟩)).result =
        .error invalidKeyMsg ∧
    (fetchNews apiKey topic (.resp ⟨429, statusText, body⟩)).result =
        .error rateLimitMsg ∧
    (fetchTopHeadlines apiKey fromIso (.resp ⟨401, statusText, body⟩)).result =
        .error invalidKeyMsg ∧
    (fetchTopHeadlines apiKey fromIso (.resp ⟨429, statusText, body⟩)).result =
        .error rateLimitMsg := by
  have h4 := topic_check_false topic ht
  refine ⟨?_, ?_, ?_, ?_⟩ <;>
    simp [fetchNews, fetchTopHeadlines, hk, h4, classify_401, classify_429,
      catchNetwork_invalidKey, catchNetwork_rateLimit]

/-- Witness for C9 with a misleading body and status text. -/
theorem auth_and_rate_limit_witness :
    (fetchNews (some "key") "news"
        (.resp ⟨401, "Teapot", "\x7b\"status\":\"ok\"\x7d"⟩)).result =
      .error invalidKeyMsg :=
  (auth_and_rate_limit_classification (some "key") "news" "2025-01-01"
    "Teapot" "\x7b\"status\":\"ok\"\x7d" (by decide) (by decide)).1

/- ------------------------------------------------------------------
C10: endpoint allow-list.
------------------------------------------------------------------ -/

/-- C10: for every GET proxy request whose `endpoint` query parameter is
absent or not in the allow-list, the handler responds 400 with the
`Invalid endpoint` payload (the UnknownEndpoint classification) and makes
no upstream call. -/
theorem invalid_endpoint_rejected (query : List (String × String))
    (envKey : Option String) (upstream : UpstreamCall → FetchOutcome)
    (h : ∀ e, query.lookup "endpoint" = some e →
      validEndpoints.contains e = false) :
    handler "GET" query envKey upstream =
      ⟨400, stringify (.obj (.cons "error" (.str "Invalid endpoint") .nil)),
        []⟩ := by
  unfold handler
  simp only [beq_iff_eq, reduceCtorEq, if_false, bne_iff_ne, ne_eq,
    not_false_eq_true, if_true]
  cases hl : query.lookup "endpoint" with
  | none => simp
  | some e =>
    have h2 : e ∉ validEndpoints := by simpa using h e hl
    simp [h2]

/-- Witness for C10 at a concrete unknown endpoint. -/
theorem invalid_endpoint_witness :
    handler "GET" [("endpoint", "unknown"), ("q", "foo")] (some "key")
        (fun _ => .err "never reached") =
      ⟨400, stringify (.obj (.cons "error" (.str "Invalid endpoint") .nil)),
        []⟩ :=
  invalid_endpoint_rejected [("endpoint", "unknown"), ("q", "foo")]
    (some "key") (fun _ => .err "never reached") (by decide)

/- ------------------------------------------------------------------
C6: articles pass-through on a 2xx response. The claim is CORRECTED: a
2xx body of `null` parses, carries no application-level error indicator
and has no article collection, yet the client does not return the empty
list — the JS access `data.status` throws a TypeError on the null
receiver, which the catch block re-throws unchanged.
------------------------------------------------------------------ -/

/-- C6 counterexample: a 200 response with body `null` parses, has no
`status:"error"` indicator and no article collection, yet `fetchNews`
surfaces the unclassified TypeError thrown by `data.status` instead of
the empty list the claim promises. -/
theorem null_body_not_empty_list :
    (fetchNews (some "key") "news" (.resp ⟨200, "OK", "null"⟩)).result =
      .error nullAccessErrMsg ∧
    (fetchNews (some "key") "news" (.resp ⟨200, "OK", "null"⟩)).result ≠
      .ok (.arr .nil) := by
  refine ⟨rfl, ?_⟩
  intro h
  have h2 : (Except.error nullAccessErrMsg : Except String Json) =
      .ok (.arr .nil) := h
  exact Except.noConfusion h2

/-- C6 amended: for every 2xx response whose JSON body parses to a
non-null value with no `status:"error"` indicator, a missing article
collection yields the empty list (not an error), and an article
collection `xs` is returned exactly as-is — `Except.ok (.arr xs)` — so N
input articles yield exactly the same N records, field-for-field and in
the same order, with no reordering, deduplication or sorting (the source
returns `data.articles` itself). A 2xx body of `null` is excluded: there
the access `data.status` throws an unclassified TypeError that is
propagated instead. -/
theorem articles_passthrough (apiKey : Option String) (topic : String)
    (status : Nat) (statusText body : String) (data : Json)
    (hk : keyFalsy apiKey = false) (ht : jsTrim topic ≠ "")
    (hs : 200 ≤ status ∧ status < 300)
    (hb : jsonParse body = some data)
    (hn : data ≠ Json.null)
    (he : errStatus data = false) :
    (jsonGet data "articles" = none →
      (fetchNews apiKey topic (.resp ⟨status, statusText, body⟩)).result =
        .ok (.arr .nil)) ∧
    (∀ xs, jsonGet data "articles" = some (.arr xs) →
      (fetchNews apiKey topic (.resp ⟨status, statusText, body⟩)).result =
        .ok (.arr xs)) := by
  have h4 := topic_check_false topic ht
  have hc := classify_2xx status statusText body data hs hb hn
  constructor
  · intro ha
    simp [fetchNews, hk, h4, hc, he, ha, jsFalsy, catchNetwork]
  · intro xs ha
    cases xs with
    | nil =>
      simp [fetchNews, hk, h4, hc, he, ha, jsFalsy, jsLength,
        JsonList.length, catchNetwork]
    | cons j tl =>
      simp [fetchNews, hk, h4, hc, he, ha, jsFalsy, jsLength,
        JsonList.length, catchNetwork]

/-- Witness for C6 (amended): a 200 response with two articles comes back
unchanged. -/
theorem articles_passthrough_witness :
    (fetchNews (some "key") "news" (.resp ⟨200, "OK",
        "\x7b\"articles\":[\x7b\"title\":\"a\"\x7d,\x7b\"title\":\"b\"\x7d]\x7d"⟩)).result =
      .ok (.arr (.cons (.obj (.cons "title" (.str "a") .nil))
        (.cons (.obj (.cons "title" (.str "b") .nil)) .nil))) :=
  (articles_passthrough (some "key") "news" 200 "OK"
      "\x7b\"articles\":[\x7b\"title\":\"a\"\x7d,\x7b\"title\":\"b\"\x7d]\x7d"
      (.obj (.cons "articles" (.arr (.cons (.obj (.cons "title" (.str "a") .nil))
        (.cons (.obj (.cons "title" (.str "b") .nil)) .nil))) .nil))
      (by decide) (by decide) (by omega) (by rfl)
      (fun h => Json.noConfusion h) (by rfl)).2
    _ (by rfl)

/- ------------------------------------------------------------------
C4: missing credential. The claim is CORRECTED: only the direct-call
client checks for the credential before calling upstream; the proxy
handler attaches `process.env.VITE_NEWS_API_KEY` without any check and
forwards the request regardless.
------------------------------------------------------------------ -/

/-- C4 counterexample: with the proxy's environment credential absent and
a valid endpoint, the handler still makes the upstream call (its call log
is non-empty, with an absent credential header) and surfaces the
upstream's own status rather than any configuration error — refuting the
claim that absence is detected before any upstream call in the proxy
context. -/
theorem proxy_no_key_still_calls :
    (handler "GET" [("endpoint", "top-headlines")] none
        (fun _ => .resp ⟨401, "Unauthorized", "\x7b\x7d"⟩)).calls =
      [⟨"top-headlines", [], none⟩] ∧
    (handler "GET" [("endpoint", "top-headlines")] none
        (fun _ => .resp ⟨401, "Unauthorized", "\x7b\x7d"⟩)).status = 401 :=
  ⟨rfl, rfl⟩

/-- C4 amended: in the direct-call context an absent credential is
detected before any network call and surfaced as the configuration
message, which is distinct from every runtime error message; the proxy
handler, by contrast, performs no such check — with an absent environment
credential and an allow-listed endpoint it still makes exactly one
upstream call, carrying no credential header. -/
theorem missing_key_direct_only (topic fromIso : String) (world : FetchOutcome)
    (query : List (String × String)) (upstream : UpstreamCall → FetchOutcome)
    (e : String) (he : query.lookup "endpoint" = some e)
    (hv : validEndpoints.contains e = true) :
    fetchNews none topic world = ⟨.error missingKeyMsg, false, none⟩ ∧
    fetchTopHeadlines none fromIso world = ⟨.error missingKeyMsg, false, none⟩ ∧
    (missingKeyMsg ≠ invalidKeyMsg ∧ missingKeyMsg ≠ rateLimitMsg ∧
      missingKeyMsg ≠ networkErrMsg ∧ missingKeyMsg ≠ emptyTopicMsg) ∧
    (handler "GET" query none upstream).calls =
      [⟨e, query.filter (fun p => p.1 ≠ "endpoint"), none⟩] := by
  refine ⟨rfl, rfl, by decide, ?_⟩
  rw [handler_valid_shape query none upstream e he hv]
  cases upstream ⟨e, query.filter (fun p => p.1 ≠ "endpoint"), none⟩ with
  | resp r => cases h : jsonParse r.body <;> simp [h]
  | err m => rfl

/-- Witness for C4 (amended) at concrete inputs. -/
theorem missing_key_direct_only_witness :
    fetchNews none "news" (.err "never reached") =
      ⟨.error missingKeyMsg, false, none⟩ :=
  (missing_key_direct_only "news" "2025-01-01" (.err "never reached")
    [("endpoint", "everything")] (fun _ => .err "boom") "everything"
    (by decide) (by decide)).1

/- ------------------------------------------------------------------
C3: exception classification. The claim is CORRECTED: classification is
by message substring, not by provenance, so an already-classified
upstream error whose text contains "NetworkError" (or "Failed to fetch")
IS reclassified, and a genuine network failure with any other message is
NOT converted.
------------------------------------------------------------------ -/

/-- C3 counterexample: an upstream 500 response with status text
`NetworkError` is first classified as the upstream error
`API error: 500 NetworkError`, but the catch block then matches the
substring and downgrades it to the generic network-error message —
refuting the claim that an already-classified error is never
reclassified. -/
theorem upstream_error_reclassified :
    (fetchNews (some "key") "news"
        (.resp ⟨500, "NetworkError", "\x7b\x7d"⟩)).result =
      .error networkErrMsg ∧
    networkErrMsg ≠ "API error: 500 NetworkError" :=
  ⟨rfl, by decide⟩

/-- C3 amended: both clients classify a rejected network call purely by
message substring — the error becomes the fixed network-error message
exactly when its message contains `Failed to fetch` or `NetworkError`,
and is propagated unchanged otherwise (so classified errors whose text
happens to contain those substrings are downgraded, and network failures
with other messages are passed through as-is). -/
theorem network_classification_by_substring (apiKey : Option String)
    (topic fromIso msg : String)
    (hk : keyFalsy apiKey = false) (ht : jsTrim topic ≠ "") :
    (fetchNews apiKey topic (.err msg)).result =
      (if includesSub msg "Failed to fetch" || includesSub msg "NetworkError"
        then .error networkErrMsg else .error msg) ∧
    (fetchTopHeadlines apiKey fromIso (.err msg)).result =
      (if includesSub msg "Failed to fetch" || includesSub msg "NetworkError"
        then .error networkErrMsg else .error msg) := by
  have h4 := topic_check_false topic ht
  constructor <;>
    simp [fetchNews, fetchTopHeadlines, hk, h4, classifyOutcome, catchNetwork]

/-- Witness for C3 (amended): the canonical browser network failure
message is converted to the fixed network-error message. -/
theorem network_classification_witness :
    (fetchNews (some "key") "news" (.err "Failed to fetch")).result =
      (if includesSub "Failed to fetch" "Failed to fetch" ||
          includesSub "Failed to fetch" "NetworkError"
        then .error networkErrMsg else .error "Failed to fetch") :=
  (network_classification_by_substring (some "key") "news" "2025-01-01"
    "Failed to fetch" (by decide) (by decide)).1

/- ------------------------------------------------------------------
C2: TopHeadlines request parameters. The claim is CORRECTED: besides
country=us and pageSize=10 the source appends a third parameter,
from=<ISO timestamp of 24 hours before now> (line 25).
------------------------------------------------------------------ -/

/-- C2 counterexample: at a concrete clock value the TopHeadlines URL
carries the query parameters country, pageSize AND from — not the claimed
two-element fixed set. -/
theorem topHeadlines_extra_from_param :
    urlParams (topHeadlinesUrl "2025-10-10T12:00:00.000Z") =
      [("country", "us"), ("pageSize", "10"),
        ("from", "2025-10-10T12:00:00.000Z")] ∧
    urlParams (topHeadlinesUrl "2025-10-10T12:00:00.000Z") ≠
      [("country", "us"), ("pageSize", "10")] := by
  constructor
  · rfl
  · decide

/-- C2 amended: for every clock value, the TopHeadlines request targets
`top-headlines` with exactly the parameters country=us, pageSize=10 and
from=<the ISO timestamp of 24 hours before the current time>, in that
order, and `fetchTopHeadlines` passes exactly this URL to `fetch`.
(The hypothesis holds of every ISO-8601 timestamp, which contains no
ampersand.) -/
theorem topHeadlines_params (apiKey : Option String) (fromIso : String)
    (world : FetchOutcome)
    (hk : keyFalsy apiKey = false)
    (hf : ∀ c ∈ fromIso.data, c ≠ '&') :
    urlParams (topHeadlinesUrl fromIso) =
      [("country", "us"), ("pageSize", "10"), ("from", fromIso)] ∧
    (fetchTopHeadlines apiKey fromIso world).requestUrl =
      some (topHeadlinesUrl fromIso) := by
  constructor
  · show (splitAmp ("country=us".data ++ '&' ::
        ("pageSize=10".data ++ '&' :: ("from".data ++ '=' :: fromIso.data)))).map
          keyVal = _
    rw [splitAmp_amp _ _ (by decide), splitAmp_amp _ _ (by decide),
      splitAmp_noamp _ (by
        intro c hc
        rcases List.mem_append.mp hc with h | h
        · exact (by decide : ∀ x ∈ "from".data, x ≠ '&') c h
        · rcases List.mem_cons.mp h with h2 | h2
          · subst h2
            decide
          · exact hf c h2)]
    simp only [List.map_cons, List.map_nil]
    rw [keyVal_split "from".data fromIso.data (by decide)]
    rfl
  · simp [fetchTopHeadlines, hk]

/-- Witness for C2 (amended) at a concrete timestamp. -/
theorem topHeadlines_params_witness :
    urlParams (topHeadlinesUrl "2025-01-01T00:00:00.000Z") =
      [("country", "us"), ("pageSize", "10"),
        ("from", "2025-01-01T00:00:00.000Z")] :=
  (topHeadlines_params (some "key") "2025-01-01T00:00:00.000Z"
    (.err "boom") (by decide) (by decide)).1

/- ------------------------------------------------------------------
C1: proxy forwarding. The claim is CORRECTED: status, parameters and
credential header are forwarded exactly as claimed, but the body is not
byte-for-byte — the handler runs `response.json()` followed by
`res.json(data)`, a parse/re-serialize cycle that preserves the JSON
value while normalizing its bytes.
------------------------------------------------------------------ -/

/-- C1 counterexample: with an allow-listed endpoint and an upstream 200
whose body contains a space inside the JSON, the handler's response body
is the re-serialization `\x7b"a":1\x7d`, which differs from the upstream
body `\x7b"a": 1\x7d` — refuting byte-for-byte forwarding. -/
theorem handler_not_byte_identical :
    (handler "GET" [("endpoint", "everything"), ("q", "foo")] (some "key")
        (fun _ => .resp ⟨200, "OK", "\x7b\"a\": 1\x7d"⟩)).body =
      "\x7b\"a\":1\x7d" ∧
    (handler "GET" [("endpoint", "everything"), ("q", "foo")] (some "key")
        (fun _ => .resp ⟨200, "OK", "\x7b\"a\": 1\x7d"⟩)).body ≠
      "\x7b\"a\": 1\x7d" := by
  constructor
  · rfl
  · decide

/-- C1 amended: for every GET proxy request with an allow-listed endpoint
and every upstream response whose body parses as JSON, the handler
responds with exactly the upstream's status code and with the
`JSON.stringify` re-serialization of the upstream's parsed JSON body
(JSON-value-identical, though not necessarily byte-identical), having made
exactly one upstream call that carries every query parameter other than
`endpoint` unchanged and in order, with the environment credential as the
`X-Api-Key` header. -/
theorem handler_forwards_status_and_value (query : List (String × String))
    (envKey : Option String) (upstream : UpstreamCall → FetchOutcome)
    (e : String) (he : query.lookup "endpoint" = some e)
    (hv : validEndpoints.contains e = true)
    (status : Nat) (statusText body : String) (data : Json)
    (hu : upstream ⟨e, query.filter (fun p => p.1 ≠ "endpoint"), envKey⟩ =
      .resp ⟨status, statusText, body⟩)
    (hp : jsonParse body = some data) :
    handler "GET" query envKey upstream =
      ⟨status, stringify data,
        [⟨e, query.filter (fun p => p.1 ≠ "endpoint"), envKey⟩]⟩ := by
  rw [handler_valid_shape query envKey upstream e he hv, hu]
  simp [hp]

/-- Witness for C1 (amended) at the counterexample's input. -/
theorem handler_forwards_witness :
    handler "GET" [("endpoint", "everything"), ("q", "foo")] (some "key")
        (fun _ => .resp ⟨200, "OK", "\x7b\"a\": 1\x7d"⟩) =
      ⟨200, stringify (.obj (.cons "a" (.num 1) .nil)),
        [⟨"everything", [("q", "foo")], some "key"⟩]⟩ :=
  handler_forwards_status_and_value [("endpoint", "everything"), ("q", "foo")]
    (some "key") (fun _ => .resp ⟨200, "OK", "\x7b\"a\": 1\x7d"⟩)
    "everything" (by decide) (by decide) 200 "OK" "\x7b\"a\": 1\x7d"
    (.obj (.cons "a" (.num 1) .nil)) rfl rfl


/- ------------------------------------------------------------------
Round-trip of the percent-encoding model (towards C7).
------------------------------------------------------------------ -/

theorem char_toNat_valid (c : Char) :
    c.toNat < 55296 ∨ (57343 < c.toNat ∧ c.toNat < 1114112) := c.valid

theorem hexVal_upper : ∀ d < 16, hexVal (hexDigitUpper d) = some d := by decide



/- ------------------------------------------------------------------
Round-trip of the percent-encoding model (towards C7).
------------------------------------------------------------------ -/

theorem utf8Bytes_lt (n : Nat) (h : n < 1114112) : ∀ b ∈ utf8Bytes n, b < 256 := by
  intro b hb
  by_cases h1 : n < 128
  · simp only [utf8Bytes, if_pos h1, List.mem_singleton] at hb
    omega
  · by_cases h2 : n < 2048
    · simp only [utf8Bytes, if_neg h1, if_pos h2, List.mem_cons,
        List.mem_singleton, List.not_mem_nil, or_false] at hb
      rcases hb with hb | hb <;> omega
    · by_cases h3 : n < 65536
      · simp only [utf8Bytes, if_neg h1, if_neg h2, if_pos h3, List.mem_cons,
          List.not_mem_nil, or_false] at hb
        rcases hb with hb | hb | hb <;> omega
      · simp only [utf8Bytes, if_neg h1, if_neg h2, if_neg h3, List.mem_cons,
          List.not_mem_nil, or_false] at hb
        rcases hb with hb | hb | hb | hb <;> omega

set_option maxRecDepth 4000 in
theorem utf8DecodeFuel_enc_nat (n : Nat)
    (hv : n < 55296 ∨ (57343 < n ∧ n < 1114112)) (fuel : Nat) (bs : List Nat) :
    utf8DecodeFuel (fuel + 1) (utf8Bytes n ++ bs) =
      (utf8DecodeFuel fuel bs).map (fun cs => Char.ofNat n :: cs) := by
  by_cases h1 : n < 128
  · have e1 : utf8Bytes n = [n] := by
      simp only [utf8Bytes]
      rw [if_pos h1]
    rw [e1, List.cons_append, List.nil_append, utf8DecodeFuel.eq_def]
    dsimp only
    rw [if_pos h1]
  · by_cases h2 : n < 2048
    · have e1 : utf8Bytes n = [192 + n / 64, 128 + n % 64] := by
        simp only [utf8Bytes]
        rw [if_neg h1, if_pos h2]
      have e2 : utf8B2 (192 + n / 64) (128 + n % 64) = some n := by
        simp only [utf8B2]
        rw [if_pos (by omega)]
        congr 1
        omega
      rw [e1, List.cons_append, List.cons_append, List.nil_append,
        utf8DecodeFuel.eq_def]
      dsimp only
      rw [if_neg (by omega), if_pos (by omega)]
      rw [e2]
    · by_cases h3 : n < 65536
      · have e1 : utf8Bytes n = [224 + n / 4096, 128 + n / 64 % 64, 128 + n % 64] := by
          simp only [utf8Bytes]
          rw [if_neg h1, if_neg h2, if_pos h3]
        have e2 : utf8B3 (224 + n / 4096) (128 + n / 64 % 64) (128 + n % 64) = some n := by
          simp only [utf8B3]
          rw [if_pos (by omega)]
          congr 1
          omega
        rw [e1, List.cons_append, List.cons_append, List.cons_append,
          List.nil_append, utf8DecodeFuel.eq_def]
        dsimp only
        rw [if_neg (by omega), if_neg (by omega), if_pos (by omega)]
        rw [e2]
      · have e1 : utf8Bytes n = [240 + n / 262144, 128 + n / 4096 % 64,
            128 + n / 64 % 64, 128 + n % 64] := by
          simp only [utf8Bytes]
          rw [if_neg h1, if_neg h2, if_neg h3]
        have e2 : utf8B4 (240 + n / 262144) (128 + n / 4096 % 64)
            (128 + n / 64 % 64) (128 + n % 64) = some n := by
          simp only [utf8B4]
          rw [if_pos (by omega)]
          congr 1
          omega
        rw [e1, List.cons_append, List.cons_append, List.cons_append,
          List.cons_append, List.nil_append, utf8DecodeFuel.eq_def]
        dsimp only
        rw [if_neg (by omega), if_neg (by omega), if_neg (by omega)]
        rw [e2]

theorem utf8DecodeFuel_enc (c : Char) (fuel : Nat) (bs : List Nat) :
    utf8DecodeFuel (fuel + 1) (utf8Bytes c.toNat ++ bs) =
      (utf8DecodeFuel fuel bs).map (fun cs => c :: cs) := by
  rw [utf8DecodeFuel_enc_nat c.toNat (char_toNat_valid c), Char.ofNat_toNat]

theorem percentByte_decode (b : Nat) (hb : b < 256) (cs : List Char) :
    percentDecodeBytes (percentByte b ++ cs) =
      (percentDecodeBytes cs).map (fun bs => b :: bs) := by
  show percentDecodeBytes ('%' :: hexDigitUpper (b / 16) :: hexDigitUpper (b % 16) :: cs) = _
  rw [percentDecodeBytes.eq_def]
  dsimp only
  rw [if_pos rfl]
  rw [hexVal_upper (b / 16) (by omega), hexVal_upper (b % 16) (by omega)]
  dsimp only
  congr 1
  funext bs
  congr 1
  omega

theorem unreserved_ascii (c : Char) (h : isUnreservedN c.toNat = true) :
    c.toNat < 128 ∧ c ≠ '%' := by
  simp only [isUnreservedN, decide_eq_true_eq] at h
  constructor
  · omega
  · intro he
    subst he
    simp at h

theorem percentDecode_flatMapBytes (bsl : List Nat) (h : ∀ b ∈ bsl, b < 256)
    (cs : List Char) :
    percentDecodeBytes (bsl.flatMap percentByte ++ cs) =
      (percentDecodeBytes cs).map (fun bs => bsl ++ bs) := by
  induction bsl with
  | nil =>
    simp
  | cons b rest ih =>
    have hb : b < 256 := h b (by simp)
    have hr := ih (fun x hx => h x (by simp [hx]))
    rw [List.flatMap_cons, List.append_assoc, percentByte_decode b hb, hr]
    cases percentDecodeBytes cs <;> simp

theorem encodeChar_decode (c : Char) (cs : List Char) :
    percentDecodeBytes (encodeChar c ++ cs) =
      (percentDecodeBytes cs).map (fun bs => utf8Bytes c.toNat ++ bs) := by
  by_cases h : isUnreservedN c.toNat = true
  · obtain ⟨hlt, hne⟩ := unreserved_ascii c h
    have e1 : encodeChar c = [c] := by
      simp only [encodeChar]
      rw [if_pos h]
    have e2 : utf8Bytes c.toNat = [c.toNat] := by
      simp only [utf8Bytes]
      rw [if_pos hlt]
    rw [e1, e2, List.cons_append, List.nil_append, percentDecodeBytes.eq_def]
    dsimp only
    rw [if_neg hne, if_pos hlt]
    rfl
  · have e1 : encodeChar c = (utf8Bytes c.toNat).flatMap percentByte := by
      simp only [encodeChar]
      rw [if_neg h]
    have hlt : c.toNat < 1114112 := by
      rcases char_toNat_valid c with hv | hv <;> omega
    rw [e1, percentDecode_flatMapBytes (utf8Bytes c.toNat) (utf8Bytes_lt c.toNat hlt)]

theorem percentDecode_encodeChars (cs : List Char) :
    percentDecodeBytes (encodeChars cs) = some (utf8Flat cs) := by
  induction cs with
  | nil => rfl
  | cons c rest ih =>
    show percentDecodeBytes (encodeChar c ++ encodeChars rest) = _
    rw [encodeChar_decode, ih]
    rfl

theorem utf8Flat_decode (cs : List Char) (fuel : Nat) (h : cs.length ≤ fuel) :
    utf8DecodeFuel fuel (utf8Flat cs) = some cs := by
  induction cs generalizing fuel with
  | nil =>
    cases fuel <;> rfl
  | cons c rest ih =>
    cases fuel with
    | zero => simp at h
    | succ k =>
      show utf8DecodeFuel (k + 1) (utf8Bytes c.toNat ++ utf8Flat rest) = _
      rw [utf8DecodeFuel_enc, ih k (by simpa using h)]
      rfl

theorem utf8Bytes_length_pos (n : Nat) : 1 ≤ (utf8Bytes n).length := by
  by_cases h1 : n < 128
  · simp [utf8Bytes, h1]
  · by_cases h2 : n < 2048
    · simp [utf8Bytes, h1, h2]
    · by_cases h3 : n < 65536
      · simp [utf8Bytes, h1, h2, h3]
      · simp [utf8Bytes, h1, h2, h3]

theorem utf8Flat_length_ge (cs : List Char) : cs.length ≤ (utf8Flat cs).length := by
  induction cs with
  | nil => simp [utf8Flat]
  | cons c rest ih =>
    have := utf8Bytes_length_pos c.toNat
    simp only [utf8Flat, List.flatMap_cons, List.length_append, List.length_cons]
    simp only [utf8Flat] at ih
    omega

theorem decode_encode (s : String) :
    decodeURIComponent (encodeURIComponent s) = some s := by
  show (percentDecodeBytes (encodeURIComponent s).data).bind _ = _
  have e0 : (encodeURIComponent s).data = encodeChars s.data := rfl
  rw [e0, percentDecode_encodeChars]
  show (utf8DecodeList (utf8Flat s.data)).map _ = _
  rw [utf8DecodeList, utf8Flat_decode s.data _ (utf8Flat_length_ge s.data)]
  rfl

theorem hexUpper_ne_amp : ∀ d < 16, hexDigitUpper d ≠ '&' := by decide

theorem encodeChar_no_amp (c : Char) : ∀ x ∈ encodeChar c, x ≠ '&' := by
  intro x hx
  by_cases h : isUnreservedN c.toNat = true
  · simp only [encodeChar, if_pos h, List.mem_singleton] at hx
    subst hx
    intro he
    subst he
    simp only [isUnreservedN, decide_eq_true_eq] at h
    revert h
    decide
  · simp only [encodeChar, if_neg h, List.mem_flatMap] at hx
    obtain ⟨b, hb, hxb⟩ := hx
    have hblt : b < 256 := by
      have hlt : c.toNat < 1114112 := by
        rcases char_toNat_valid c with hv | hv <;> omega
      exact utf8Bytes_lt c.toNat hlt b hb
    simp only [percentByte, List.mem_cons, List.not_mem_nil, or_false] at hxb
    rcases hxb with rfl | rfl | rfl
    · decide
    · exact hexUpper_ne_amp (b / 16) (by omega)
    · exact hexUpper_ne_amp (b % 16) (by omega)

theorem encodeChars_no_amp (cs : List Char) : ∀ x ∈ encodeChars cs, x ≠ '&' := by
  induction cs with
  | nil => intro x hx; simp [encodeChars] at hx
  | cons c rest ih =>
    intro x hx
    have : x ∈ encodeChar c ++ encodeChars rest := hx
    rcases List.mem_append.mp this with h | h
    · exact encodeChar_no_amp c x h
    · exact ih x h

/- ------------------------------------------------------------------
C7: Topic-mode request construction and the q-parameter round-trip.
------------------------------------------------------------------ -/

/-- C7: for every topic that is non-empty after trimming (with a
configured key), `fetchNews` passes to `fetch` exactly the URL built on
the `everything` endpoint; that URL's query parameters are exactly
q=<encodeURIComponent topic>, pageSize=10, sortBy=publishedAt and
language=en; and the q value URL-decodes back to exactly the topic. -/
theorem topic_query_roundtrip (apiKey : Option String) (topic : String)
    (world : FetchOutcome) (hk : keyFalsy apiKey = false)
    (ht : jsTrim topic ≠ "") :
    (fetchNews apiKey topic world).requestUrl = some (fetchNewsUrl topic) ∧
    urlParams (fetchNewsUrl topic) =
      [("q", encodeURIComponent topic), ("pageSize", "10"),
        ("sortBy", "publishedAt"), ("language", "en")] ∧
    decodeURIComponent (encodeURIComponent topic) = some topic := by
  refine ⟨?_, ?_, decode_encode topic⟩
  · simp [fetchNews, hk, topic_check_false topic ht]
  · show (splitAmp (("q".data ++ '=' :: (encodeURIComponent topic).data) ++ '&' ::
        ("pageSize=10".data ++ '&' :: ("sortBy=publishedAt".data ++ '&' ::
          "language=en".data)))).map keyVal = _
    have hq : ∀ c ∈ "q".data ++ '=' :: (encodeURIComponent topic).data, c ≠ '&' := by
      intro c hc
      rcases List.mem_append.mp hc with h | h
      · exact (by decide : ∀ x ∈ "q".data, x ≠ '&') c h
      · rcases List.mem_cons.mp h with h2 | h2
        · subst h2
          decide
        · exact encodeChars_no_amp topic.data c h2
    rw [splitAmp_amp _ _ hq, splitAmp_amp _ _ (by decide),
      splitAmp_amp _ _ (by decide), splitAmp_noamp _ (by decide)]
    simp only [List.map_cons, List.map_nil]
    rw [keyVal_split "q".data (encodeURIComponent topic).data (by decide)]
    rfl

/-- Witness for C7 at the topic `hello world` (URL-encodes to
`hello%20world` and decodes back). -/
theorem topic_query_roundtrip_witness :
    (fetchNews (some "key") "hello world" (.err "x")).requestUrl =
        some (fetchNewsUrl "hello world") ∧
    urlParams (fetchNewsUrl "hello world") =
      [("q", encodeURIComponent "hello world"), ("pageSize", "10"),
        ("sortBy", "publishedAt"), ("language", "en")] ∧
    decodeURIComponent (encodeURIComponent "hello world") = some "hello world" :=
  topic_query_roundtrip (some "key") "hello world" (.err "x")
    (by decide) (by decide)

/- ------------------------------------------------------------------
Round-trip of the JSON model (towards C5): numbers.
------------------------------------------------------------------ -/

theorem hexVal_lower : ∀ d < 16, hexVal (hexDigitLower d) = some d := by decide

theorem digit_char_toNat : ∀ d < 10, (Char.ofNat (48 + d)).toNat = 48 + d := by
  decide

theorem digit_char_props : ∀ d < 10,
    isDigitChar (Char.ofNat (48 + d)) = true ∧
    isWsChar (Char.ofNat (48 + d)) = false ∧
    Char.ofNat (48 + d) ≠ 'n' ∧ Char.ofNat (48 + d) ≠ 't' ∧
    Char.ofNat (48 + d) ≠ 'f' ∧ Char.ofNat (48 + d) ≠ '"' ∧
    Char.ofNat (48 + d) ≠ '[' ∧ Char.ofNat (48 + d) ≠ lbrace ∧
    Char.ofNat (48 + d) ≠ '-' ∧ Char.ofNat (48 + d) ≠ ']' := by
  decide

theorem natCharsFuel_head : ∀ fuel m, m < fuel →
    ∃ d tl, natCharsFuel fuel m = Char.ofNat (48 + d) :: tl ∧ d < 10 ∧
      (10 ≤ m → 1 ≤ d) ∧ (m < 10 → d = m) := by
  intro fuel
  induction fuel with
  | zero => intro m hm; omega
  | succ f ih =>
    intro m hm
    by_cases h10 : m < 10
    · refine ⟨m, [], ?_, h10, by omega, fun _ => rfl⟩
      simp [natCharsFuel, h10]
    · have hdiv : m / 10 < f := by omega
      obtain ⟨d, tl, he, hd, hge, hlt⟩ := ih (m / 10) hdiv
      refine ⟨d, tl ++ [Char.ofNat (48 + m % 10)], ?_, hd, ?_, by omega⟩
      · simp [natCharsFuel, h10, he]
      · intro _
        by_cases hq : m / 10 < 10
        · have := hlt hq
          omega
        · exact hge (by omega)

theorem natCharsFuel_digits : ∀ fuel m, m < fuel →
    ∀ c ∈ natCharsFuel fuel m, ∃ d, d < 10 ∧ c = Char.ofNat (48 + d) := by
  intro fuel
  induction fuel with
  | zero => intro m hm; omega
  | succ f ih =>
    intro m hm c hc
    by_cases h10 : m < 10
    · simp only [natCharsFuel, if_pos h10, List.mem_singleton] at hc
      exact ⟨m, h10, hc⟩
    · simp only [natCharsFuel, if_neg h10, List.mem_append,
        List.mem_singleton] at hc
      rcases hc with hc | hc
      · exact ih (m / 10) (by omega) c hc
      · exact ⟨m % 10, by omega, hc⟩

theorem digitsToNat_natCharsFuel : ∀ fuel m, m < fuel →
    digitsToNat (natCharsFuel fuel m) = m := by
  intro fuel
  induction fuel with
  | zero => intro m hm; omega
  | succ f ih =>
    intro m hm
    by_cases h10 : m < 10
    · simp only [natCharsFuel, if_pos h10, digitsToNat, List.foldl_cons,
        List.foldl_nil]
      rw [digit_char_toNat m h10]
      omega
    · simp only [natCharsFuel, if_neg h10, digitsToNat, List.foldl_append,
        List.foldl_cons, List.foldl_nil]
      have hrec := ih (m / 10) (by omega)
      simp only [digitsToNat] at hrec
      rw [hrec, digit_char_toNat (m % 10) (by omega)]
      omega

theorem takeDigits_append (ds rest : List Char)
    (hd : ∀ c ∈ ds, isDigitChar c = true)
    (hr : rest = [] ∨ ∃ c cs, rest = c :: cs ∧ isDigitChar c = false) :
    takeDigits (ds ++ rest) = (ds, rest) := by
  induction ds with
  | nil =>
    rcases hr with rfl | ⟨c, cs, rfl, hc⟩
    · rfl
    · simp [takeDigits, hc]
  | cons c cs ih =>
    have hc : isDigitChar c = true := hd c (by simp)
    have := ih (fun x hx => hd x (by simp [hx]))
    simp [takeDigits, hc, this]

theorem delim_not_digit (rest : List Char) (hr : jsonDelim rest) :
    rest = [] ∨ ∃ c cs, rest = c :: cs ∧ isDigitChar c = false := by
  cases rest with
  | nil => exact Or.inl rfl
  | cons c cs =>
    right
    refine ⟨c, cs, rfl, ?_⟩
    rcases hr with h | h | h <;> subst h <;> decide

theorem zero_head : ∀ d, 1 ≤ d → d < 10 → Char.ofNat (48 + d) ≠ '0' := by decide

theorem parseNumber_natChars (neg : Bool) (m : Nat) (rest : List Char)
    (hr : jsonDelim rest) :
    parseNumber neg (natChars m ++ rest) =
      some (.num (if neg then -(m : Int) else (m : Int)), rest) := by
  have hdig : ∀ c ∈ natChars m, isDigitChar c = true := by
    intro c hc
    obtain ⟨d, hd, rfl⟩ := natCharsFuel_digits (m + 1) m (by omega) c hc
    exact (digit_char_props d hd).1
  obtain ⟨d, tl, he, hd10, hge, hlt⟩ := natCharsFuel_head (m + 1) m (by omega)
  have hv : digitsToNat (Char.ofNat (48 + d) :: tl) = m := by
    rw [← he]
    exact digitsToNat_natCharsFuel (m + 1) m (by omega)
  have hbad : startsExp rest = false := by
    cases rest with
    | nil => rfl
    | cons c cs => rcases hr with h | h | h <;> subst h <;> rfl
  simp only [parseNumber]
  rw [takeDigits_append _ _ hdig (delim_not_digit rest hr)]
  dsimp only
  rw [show natChars m = Char.ofNat (48 + d) :: tl from he]
  dsimp only
  rw [if_neg ?hz]
  case hz =>
    intro ⟨hzero, htl⟩
    by_cases hm10 : m < 10
    · apply htl
      have e2 : natCharsFuel (m + 1) m = [Char.ofNat (48 + m)] := by
        simp [natCharsFuel, hm10]
      have := he.symm.trans e2
      exact (List.cons.injEq _ _ _ _ ▸ this).2
    · exact zero_head d (hge (by omega)) hd10 hzero
  rw [hbad]
  simp only [Bool.false_eq_true, if_false]
  rw [hv]


/- ------------------------------------------------------------------
Round-trip of the JSON model (towards C5): strings.
------------------------------------------------------------------ -/

theorem parseStringBody_u (hc lc : Char) (hi lo : Nat)
    (h1 : hexVal hc = some hi) (h2 : hexVal lc = some lo)
    (hlt : ((0 * 16 + 0) * 16 + hi) * 16 + lo < 55296) (X : List Char) :
    parseStringBody ('\\' :: 'u' :: '0' :: '0' :: hc :: lc :: X) =
      (parseStringBody X).map
        (fun p => (Char.ofNat (((0 * 16 + 0) * 16 + hi) * 16 + lo) :: p.1, p.2)) := by
  rw [parseStringBody.eq_def]
  simp only [Char.reduceEq, reduceIte]
  rw [show hexVal '0' = some 0 from rfl, h1, h2]
  dsimp only
  rw [if_pos hlt]

theorem parseStringBody_escape (cs rest : List Char) :
    parseStringBody (escapeString cs ++ '"' :: rest) = some (cs, rest) := by
  induction cs with
  | nil =>
    show parseStringBody ('"' :: rest) = _
    rw [parseStringBody.eq_def]
    simp only [Char.reduceEq, reduceIte]
  | cons c cs' ih =>
    rw [show escapeString (c :: cs') = escapeChar c ++ escapeString cs' from rfl,
      List.append_assoc]
    by_cases h1 : c = '"'
    · subst h1
      show parseStringBody ('\\' :: '"' :: (escapeString cs' ++ '"' :: rest)) = _
      rw [parseStringBody.eq_def]
      simp only [Char.reduceEq, reduceIte]
      rw [ih]
      rfl
    · by_cases h2 : c = '\\'
      · subst h2
        show parseStringBody ('\\' :: '\\' :: (escapeString cs' ++ '"' :: rest)) = _
        rw [parseStringBody.eq_def]
        simp only [Char.reduceEq, reduceIte]
        rw [ih]
        rfl
      · by_cases h3 : c = '\n'
        · subst h3
          show parseStringBody ('\\' :: 'n' :: (escapeString cs' ++ '"' :: rest)) = _
          rw [parseStringBody.eq_def]
          simp only [Char.reduceEq, reduceIte]
          rw [ih]
          rfl
        · by_cases h4 : c = '\r'
          · subst h4
            show parseStringBody ('\\' :: 'r' :: (escapeString cs' ++ '"' :: rest)) = _
            rw [parseStringBody.eq_def]
            simp only [Char.reduceEq, reduceIte]
            rw [ih]
            rfl
          · by_cases h5 : c = '\t'
            · subst h5
              show parseStringBody ('\\' :: 't' :: (escapeString cs' ++ '"' :: rest)) = _
              rw [parseStringBody.eq_def]
              simp only [Char.reduceEq, reduceIte]
              rw [ih]
              rfl
            · by_cases h6 : c.toNat = 8
              · obtain rfl : c = '\x08' := by
                  have := Char.ofNat_toNat c
                  rw [h6] at this
                  exact this.symm
                show parseStringBody ('\\' :: 'b' :: (escapeString cs' ++ '"' :: rest)) = _
                rw [parseStringBody.eq_def]
                simp only [Char.reduceEq, reduceIte]
                rw [ih]
                rfl
              · by_cases h7 : c.toNat = 12
                · obtain rfl : c = '\x0c' := by
                    have := Char.ofNat_toNat c
                    rw [h7] at this
                    exact this.symm
                  show parseStringBody ('\\' :: 'f' :: (escapeString cs' ++ '"' :: rest)) = _
                  rw [parseStringBody.eq_def]
                  simp only [Char.reduceEq, reduceIte]
                  rw [ih]
                  rfl
                · by_cases h8 : c.toNat < 32
                  · have e1 : escapeChar c = ['\\', 'u', '0', '0',
                        hexDigitLower (c.toNat / 16), hexDigitLower (c.toNat % 16)] := by
                      simp only [escapeChar]
                      rw [if_neg h1, if_neg h2, if_neg h3, if_neg h4, if_neg h5,
                        if_neg h6, if_neg h7, if_pos h8]
                    rw [e1]
                    show parseStringBody ('\\' :: 'u' :: '0' :: '0' ::
                      hexDigitLower (c.toNat / 16) :: hexDigitLower (c.toNat % 16) ::
                      (escapeString cs' ++ '"' :: rest)) = _
                    rw [parseStringBody_u _ _ (c.toNat / 16) (c.toNat % 16)
                      (hexVal_lower _ (by omega)) (hexVal_lower _ (by omega))
                      (by omega) _]
                    rw [show ((0 * 16 + 0) * 16 + c.toNat / 16) * 16 + c.toNat % 16 =
                      c.toNat from by omega, Char.ofNat_toNat, ih]
                    rfl
                  · have e1 : escapeChar c = [c] := by
                      simp only [escapeChar]
                      rw [if_neg h1, if_neg h2, if_neg h3, if_neg h4, if_neg h5,
                        if_neg h6, if_neg h7, if_neg h8]
                    rw [e1, List.cons_append, List.nil_append,
                      parseStringBody.eq_def]
                    dsimp only
                    rw [if_neg h1, if_neg h2, if_neg (by omega : ¬ c.toNat < 32)]
                    rw [ih]
                    rfl

/- ------------------------------------------------------------------
Round-trip of the JSON model (towards C5): whole values.
------------------------------------------------------------------ -/

theorem skipWs_cons_not (c : Char) (l : List Char) (h : isWsChar c = false) :
    skipWs (c :: l) = c :: l := by
  simp [skipWs, h]

theorem jsize_pos (j : Json) : 1 ≤ jsize j := by
  cases j with
  | null => exact Nat.le_refl 1
  | bool b => exact Nat.le_refl 1
  | num n => exact Nat.le_refl 1
  | str s => exact Nat.le_refl 1
  | arr xs => exact Nat.succ_le_succ (Nat.zero_le _)
  | obj fs => exact Nat.succ_le_succ (Nat.zero_le _)

theorem stringify_head_ok (j : Json) :
    ∃ c cs, stringifyChars j = c :: cs ∧ isWsChar c = false ∧ c ≠ ']' := by
  cases j with
  | null => exact ⟨'n', _, rfl, by decide, by decide⟩
  | bool b =>
    cases b with
    | false => exact ⟨'f', _, rfl, by decide, by decide⟩
    | true => exact ⟨'t', _, rfl, by decide, by decide⟩
  | num n =>
    cases n with
    | ofNat m =>
      obtain ⟨d, tl, he, hd, hge, hlt⟩ := natCharsFuel_head (m + 1) m (by omega)
      obtain ⟨q1, q2, q3, q4, q5, q6, q7, q8, q9, q10⟩ := digit_char_props d hd
      exact ⟨Char.ofNat (48 + d), tl, by
        rw [show stringifyChars (.num (Int.ofNat m)) = natCharsFuel (m + 1) m from rfl, he],
        q2, q10⟩
    | negSucc m => exact ⟨'-', _, rfl, by decide, by decide⟩
  | str s => exact ⟨'"', _, rfl, by decide, by decide⟩
  | arr xs => exact ⟨'[', _, rfl, by decide, by decide⟩
  | obj fs => exact ⟨lbrace, _, rfl, by decide, by decide⟩

theorem stringifyList_head (j : Json) (tl : JsonList) :
    ∃ c cs, stringifyList (.cons j tl) = c :: cs ∧ isWsChar c = false ∧ c ≠ ']' := by
  obtain ⟨c, cs, he, hw, hb⟩ := stringify_head_ok j
  cases tl with
  | nil =>
    exact ⟨c, cs, by rw [show stringifyList (.cons j .nil) = stringifyChars j from rfl, he],
      hw, hb⟩
  | cons j2 tl2 =>
    refine ⟨c, cs ++ ',' :: stringifyList (.cons j2 tl2), ?_, hw, hb⟩
    rw [show stringifyList (.cons j (.cons j2 tl2)) =
      stringifyChars j ++ ',' :: stringifyList (.cons j2 tl2) from rfl, he]
    rfl

mutual
theorem parseVal_stringify (j : Json) (fuel : Nat) (rest : List Char)
    (hf : jsize j ≤ fuel) (hr : jsonDelim rest) :
    parseVal fuel (stringifyChars j ++ rest) = some (j, rest) := by
  cases fuel with
  | zero => exact absurd (Nat.le_trans (jsize_pos j) hf) (by omega)
  | succ f =>
    cases j with
    | null =>
      show parseVal (f + 1) ('n' :: 'u' :: 'l' :: 'l' :: rest) = _
      rw [parseVal.eq_def]
      dsimp only
      rw [skipWs_cons_not _ _ (by decide)]
      dsimp only
      rw [if_pos rfl]
      rfl
    | bool b =>
      cases b with
      | true =>
        show parseVal (f + 1) ('t' :: 'r' :: 'u' :: 'e' :: rest) = _
        rw [parseVal.eq_def]
        dsimp only
        rw [skipWs_cons_not _ _ (by decide)]
        dsimp only
        rw [if_neg (by decide), if_pos rfl]
        rfl
      | false =>
        show parseVal (f + 1) ('f' :: 'a' :: 'l' :: 's' :: 'e' :: rest) = _
        rw [parseVal.eq_def]
        dsimp only
        rw [skipWs_cons_not _ _ (by decide)]
        dsimp only
        rw [if_neg (by decide), if_neg (by decide), if_pos rfl]
        rfl
    | num n =>
      cases n with
      | ofNat m =>
        obtain ⟨d, tl, he, hd, hge, hlt⟩ := natCharsFuel_head (m + 1) m (by omega)
        obtain ⟨q1, q2, q3, q4, q5, q6, q7, q8, q9, q10⟩ := digit_char_props d hd
        rw [show stringifyChars (.num (Int.ofNat m)) = natCharsFuel (m + 1) m from rfl,
          he, List.cons_append, parseVal.eq_def]
        dsimp only
        rw [skipWs_cons_not _ _ q2]
        dsimp only
        rw [if_neg q3, if_neg q4, if_neg q5, if_neg q6, if_neg q7, if_neg q8,
          if_neg q9, if_pos q1]
        rw [show Char.ofNat (48 + d) :: (tl ++ rest) = natCharsFuel (m + 1) m ++ rest from
          by rw [he]; rfl]
        rw [show (natCharsFuel (m + 1) m : List Char) = natChars m from rfl]
        rw [parseNumber_natChars false m rest hr]
        rfl
      | negSucc m =>
        rw [show stringifyChars (.num (Int.negSucc m)) = '-' :: natChars (m + 1) from rfl,
          List.cons_append, parseVal.eq_def]
        dsimp only
        rw [skipWs_cons_not _ _ (by decide)]
        dsimp only
        rw [if_neg (by decide), if_neg (by decide), if_neg (by decide),
          if_neg (by decide), if_neg (by decide), if_neg (by decide), if_pos rfl]
        rw [parseNumber_natChars true (m + 1) rest hr]
        have hneg : -((m + 1 : Nat) : Int) = Int.negSucc m := by
          rw [Int.negSucc_eq]
          push_cast
          ring
        rw [hneg]
        rfl
    | str s =>
      rw [show stringifyChars (.str s) = '"' :: (escapeString s.data ++ ['"']) from rfl]
      simp only [List.cons_append, List.append_assoc, List.nil_append]
      rw [parseVal.eq_def]
      dsimp only
      rw [skipWs_cons_not _ _ (by decide)]
      dsimp only
      rw [if_neg (by decide), if_neg (by decide), if_neg (by decide), if_pos rfl]
      rw [parseStringBody_escape]
      rfl
    | arr xs =>
      cases xs with
      | nil =>
        show parseVal (f + 1) ('[' :: ']' :: rest) = _
        rw [parseVal.eq_def]
        dsimp only
        rw [skipWs_cons_not _ _ (by decide)]
        dsimp only
        rw [if_neg (by decide), if_neg (by decide), if_neg (by decide),
          if_neg (by decide), if_pos rfl]
        rw [skipWs_cons_not _ _ (by decide)]
        dsimp only
        rw [if_pos rfl]
      | cons j1 tl =>
        have hf2 : jsizeL (.cons j1 tl) + 1 ≤ f + 1 := hf
        obtain ⟨c, cs, he, hw, hb⟩ := stringifyList_head j1 tl
        rw [show stringifyChars (.arr (.cons j1 tl)) =
          '[' :: (stringifyList (.cons j1 tl) ++ [']']) from rfl]
        simp only [List.cons_append, List.append_assoc, List.nil_append]
        rw [parseVal.eq_def]
        dsimp only
        rw [skipWs_cons_not _ _ (by decide)]
        dsimp only
        rw [if_neg (by decide), if_neg (by decide), if_neg (by decide),
          if_neg (by decide), if_pos rfl]
        rw [he, List.cons_append, skipWs_cons_not _ _ hw]
        try dsimp only
        rw [if_neg hb]
        rw [show c :: (cs ++ ']' :: rest) = stringifyList (.cons j1 tl) ++ ']' :: rest from
          by rw [he]; rfl]
        rw [parseElems_stringify (.cons j1 tl) f rest (by omega) (by intro h; cases h)]
        rfl
    | obj fs =>
      cases fs with
      | nil =>
        show parseVal (f + 1) (lbrace :: rbrace :: rest) = _
        rw [parseVal.eq_def]
        dsimp only
        rw [skipWs_cons_not _ _ (by decide)]
        dsimp only
        rw [if_neg (by decide), if_neg (by decide), if_neg (by decide),
          if_neg (by decide), if_neg (by decide), if_pos rfl]
        rw [skipWs_cons_not _ _ (by decide)]
        dsimp only
        rw [if_pos rfl]
      | cons k v tl =>
        have hf2 : jsizeO (.cons k v tl) + 1 ≤ f + 1 := hf
        rw [show stringifyChars (.obj (.cons k v tl)) =
          lbrace :: (stringifyObj (.cons k v tl) ++ [rbrace]) from rfl]
        simp only [List.cons_append, List.append_assoc, List.nil_append]
        rw [parseVal.eq_def]
        dsimp only
        rw [skipWs_cons_not _ _ (by decide)]
        dsimp only
        rw [if_neg (by decide), if_neg (by decide), if_neg (by decide),
          if_neg (by decide), if_neg (by decide), if_pos rfl]
        have hhead : ∃ K, stringifyObj (.cons k v tl) = '"' :: K := by
          cases tl with
          | nil => exact ⟨_, rfl⟩
          | cons k2 v2 tl2 => exact ⟨_, rfl⟩
        obtain ⟨K, hK⟩ := hhead
        rw [hK, List.cons_append, skipWs_cons_not _ _ (by decide)]
        dsimp only
        rw [if_neg (by decide)]
        rw [show '"' :: (K ++ rbrace :: rest) =
          stringifyObj (.cons k v tl) ++ rbrace :: rest from by rw [hK]; rfl]
        exact parseFields_stringify (.cons k v tl) f rest (by omega)
          (by intro h; cases h)

theorem parseElems_stringify (xs : JsonList) (fuel : Nat) (rest : List Char)
    (hf : jsizeL xs ≤ fuel) (hne : xs ≠ .nil) :
    parseElems fuel (stringifyList xs ++ ']' :: rest) = some (xs, rest) := by
  cases xs with
  | nil => exact absurd rfl hne
  | cons j tl =>
    have hf2 : jsize j + jsizeL tl + 1 ≤ fuel := hf
    cases fuel with
    | zero => exact absurd hf2 (by omega)
    | succ f =>
      cases tl with
      | nil =>
        show parseElems (f + 1) (stringifyChars j ++ ']' :: rest) = _
        rw [parseElems.eq_def]
        dsimp only
        rw [parseVal_stringify j f (']' :: rest)
          (by have := jsize_pos j; omega) (Or.inr (Or.inl rfl))]
        dsimp only
        rw [skipWs_cons_not _ _ (by decide)]
        dsimp only
        rw [if_neg (by decide), if_pos rfl]
      | cons j2 tl2 =>
        rw [show stringifyList (.cons j (.cons j2 tl2)) =
          stringifyChars j ++ ',' :: stringifyList (.cons j2 tl2) from rfl,
          List.append_assoc, List.cons_append, parseElems.eq_def]
        dsimp only
        rw [parseVal_stringify j f
          (',' :: (stringifyList (.cons j2 tl2) ++ ']' :: rest))
          (by omega) (Or.inl rfl)]
        dsimp only
        rw [skipWs_cons_not _ _ (by decide)]
        dsimp only
        rw [if_pos rfl]
        have hs : jsize j2 + jsizeL tl2 + 1 ≤ f := by
          have : jsizeL (.cons j2 tl2) = jsize j2 + jsizeL tl2 + 1 := rfl
          omega
        rw [parseElems_stringify (.cons j2 tl2) f rest (by omega)
          (by intro h; cases h)]

theorem parseFields_stringify (fs : JsonObj) (fuel : Nat) (rest : List Char)
    (hf : jsizeO fs ≤ fuel) (hne : fs ≠ .nil) :
    parseFields fuel (stringifyObj fs ++ rbrace :: rest) = some (.obj fs, rest) := by
  cases fs with
  | nil => exact absurd rfl hne
  | cons k v tl =>
    have hf2 : jsize v + jsizeO tl + 1 ≤ fuel := hf
    cases fuel with
    | zero => exact absurd hf2 (by omega)
    | succ f =>
      cases tl with
      | nil =>
        rw [show stringifyObj (.cons k v .nil) =
          '"' :: (escapeString k.data ++ ['"', ':']) ++ stringifyChars v from rfl]
        simp only [List.cons_append, List.append_assoc, List.nil_append]
        rw [parseFields.eq_def]
        dsimp only
        rw [skipWs_cons_not _ _ (by decide)]
        dsimp only
        rw [if_pos rfl]
        rw [parseStringBody_escape]
        dsimp only
        rw [skipWs_cons_not _ _ (by decide)]
        dsimp only
        rw [if_pos rfl]
        rw [parseVal_stringify v f (rbrace :: rest)
          (by have := jsize_pos v; omega) (Or.inr (Or.inr rfl))]
        dsimp only
        rw [skipWs_cons_not _ _ (by decide)]
        dsimp only
        rw [if_neg (by decide), if_pos rfl]
      | cons k2 v2 tl2 =>
        rw [show stringifyObj (.cons k v (.cons k2 v2 tl2)) =
          '"' :: (escapeString k.data ++ ['"', ':']) ++ stringifyChars v ++
            ',' :: stringifyObj (.cons k2 v2 tl2) from rfl]
        simp only [List.cons_append, List.append_assoc, List.nil_append]
        rw [parseFields.eq_def]
        dsimp only
        rw [skipWs_cons_not _ _ (by decide)]
        dsimp only
        rw [if_pos rfl]
        rw [parseStringBody_escape]
        dsimp only
        rw [skipWs_cons_not _ _ (by decide)]
        dsimp only
        rw [if_pos rfl]
        rw [parseVal_stringify v f
          (',' :: (stringifyObj (.cons k2 v2 tl2) ++ rbrace :: rest))
          (by omega) (Or.inl rfl)]
        dsimp only
        rw [skipWs_cons_not _ _ (by decide)]
        dsimp only
        rw [if_pos rfl]
        have hs : jsize v2 + jsizeO tl2 + 1 ≤ f := by
          have : jsizeO (.cons k2 v2 tl2) = jsize v2 + jsizeO tl2 + 1 := rfl
          omega
        rw [parseFields_stringify (.cons k2 v2 tl2) f rest (by omega)
          (by intro h; cases h)]
end

mutual
theorem jsize_le_len (j : Json) : jsize j + 1 ≤ 2 * (stringifyChars j).length := by
  cases j with
  | null => decide
  | bool b => cases b <;> decide
  | num n =>
    cases n with
    | ofNat m =>
      obtain ⟨d, tl, he, _, _, _⟩ := natCharsFuel_head (m + 1) m (by omega)
      show 1 + 1 ≤ 2 * (natCharsFuel (m + 1) m).length
      rw [he]
      simp only [List.length_cons]
      omega
    | negSucc m =>
      show 1 + 1 ≤ 2 * ('-' :: natChars (m + 1)).length
      simp only [List.length_cons]
      omega
  | str s =>
    show 1 + 1 ≤ 2 * ('"' :: (escapeString s.data ++ ['"'])).length
    simp only [List.length_cons, List.length_append]
    omega
  | arr xs =>
    have h1 := jsizeL_le_len xs
    show jsizeL xs + 1 + 1 ≤ 2 * ('[' :: (stringifyList xs ++ [']'])).length
    simp only [List.length_cons, List.length_append]
    omega
  | obj fs =>
    have h1 := jsizeO_le_len fs
    show jsizeO fs + 1 + 1 ≤ 2 * (lbrace :: (stringifyObj fs ++ [rbrace])).length
    simp only [List.length_cons, List.length_append]
    omega

theorem jsizeL_le_len (xs : JsonList) :
    jsizeL xs ≤ 2 * (stringifyList xs).length + 1 := by
  cases xs with
  | nil => decide
  | cons j tl =>
    cases tl with
    | nil =>
      have h1 := jsize_le_len j
      show jsize j + 1 + 1 ≤ 2 * (stringifyChars j).length + 1
      omega
    | cons j2 tl2 =>
      have h1 := jsize_le_len j
      have h2 := jsizeL_le_len (.cons j2 tl2)
      show jsize j + jsizeL (.cons j2 tl2) + 1 ≤
        2 * (stringifyChars j ++ ',' :: stringifyList (.cons j2 tl2)).length + 1
      simp only [List.length_append, List.length_cons]
      omega

theorem jsizeO_le_len (fs : JsonObj) :
    jsizeO fs ≤ 2 * (stringifyObj fs).length + 1 := by
  cases fs with
  | nil => decide
  | cons k v tl =>
    cases tl with
    | nil =>
      have h1 := jsize_le_len v
      show jsize v + 1 + 1 ≤
        2 * ('"' :: (escapeString k.data ++ ['"', ':']) ++ stringifyChars v).length + 1
      simp only [List.length_append, List.length_cons]
      omega
    | cons k2 v2 tl2 =>
      have h1 := jsize_le_len v
      have h2 := jsizeO_le_len (.cons k2 v2 tl2)
      show jsize v + jsizeO (.cons k2 v2 tl2) + 1 ≤
        2 * ('"' :: (escapeString k.data ++ ['"', ':']) ++ stringifyChars v ++
          ',' :: stringifyObj (.cons k2 v2 tl2)).length + 1
      simp only [List.length_append, List.length_cons]
      omega
end

theorem jsonParse_stringify (j : Json) : jsonParse (stringify j) = some j := by
  show (match parseVal (2 * (stringifyChars j).length + 2) (stringifyChars j) with
    | some (v, rest) => if skipWs rest = [] then some v else none
    | none => none) = _
  have h := parseVal_stringify j (2 * (stringifyChars j).length + 2) []
    (by have := jsize_le_len j; omega) trivial
  rw [List.append_nil] at h
  rw [h]
  rfl

theorem classify_core_agree (status : Nat) (st1 st2 b1 : String) (data : Json)
    (hp : jsonParse b1 = some data)
    (hs : (200 ≤ status ∧ status < 300) ∨ status = 401 ∨ status = 429) :
    classifyOutcome (.resp ⟨status, st2, stringify data⟩) =
      classifyOutcome (.resp ⟨status, st1, b1⟩) := by
  rcases hs with h2 | h401 | h429
  · by_cases hn : data = Json.null
    · subst hn
      rw [classify_2xx_null status st2 (stringify Json.null) h2
          (jsonParse_stringify Json.null),
        classify_2xx_null status st1 b1 h2 hp]
    · rw [classify_2xx status st2 (stringify data) data h2
          (jsonParse_stringify data) hn,
        classify_2xx status st1 b1 data h2 hp hn]
  · subst h401
    rw [classify_401, classify_401]
  · subst h429
    rw [classify_429, classify_429]

/- ------------------------------------------------------------------
C5: direct-call vs proxied-call equivalence. The claim is CORRECTED: for
statuses outside {2xx, 401, 429} the two strategies can classify the same
upstream response differently, because the proxied client sees the
proxy's own reason phrase instead of the upstream status text, and the
direct client's catch block reclassifies by message substring.
------------------------------------------------------------------ -/

/-- C5 counterexample: for the same mocked upstream response
(500, status text `NetworkError`, body `\x7b\x7d`), the direct strategy
reports the NetworkError kind (its catch block matches the substring in
`API error: 500 NetworkError`), while the proxied strategy — whose proxy
forwards status 500 and whose HTTP layer supplies the reason phrase
`Internal Server Error` — reports the UpstreamError message
`API error: 500 Internal Server Error`. The two results differ,
refuting kind-identity for every identical upstream response. -/
theorem strategies_diverge_on_status_text :
    (fetchNews (some "key") "news"
        (.resp ⟨500, "NetworkError", "\x7b\x7d"⟩)).result =
      .error networkErrMsg ∧
    (fetchNewsProxied "news" (some "key")
        (fun _ => .resp ⟨500, "NetworkError", "\x7b\x7d"⟩)
        (fun _ => "Internal Server Error")).result =
      .error "API error: 500 Internal Server Error" ∧
    networkErrMsg ≠ "API error: 500 Internal Server Error" :=
  ⟨rfl, rfl, by decide⟩

/-- C5 amended: for every logical SearchRequest — Topic mode with a
non-blank topic, or TopHeadlines mode — and every identical mocked
upstream response whose body parses as JSON and whose status is 2xx, 401
or 429, the direct strategy and the spec-modelled proxied strategy yield
identical results: the same normalized article list on success and the
same error classification on failure, for any proxy-side reason phrase
and any environment credential. -/
theorem strategies_agree_on_core_statuses (apiKey envKey : Option String)
    (topic fromIso : String) (reason : Nat → String) (status : Nat)
    (statusText body : String) (data : Json)
    (hk : keyFalsy apiKey = false) (ht : jsTrim topic ≠ "")
    (hp : jsonParse body = some data)
    (hs : (200 ≤ status ∧ status < 300) ∨ status = 401 ∨ status = 429) :
    (fetchNewsProxied topic envKey
        (fun _ => .resp ⟨status, statusText, body⟩) reason).result =
      (fetchNews apiKey topic (.resp ⟨status, statusText, body⟩)).result ∧
    (fetchTopHeadlinesProxied fromIso envKey
        (fun _ => .resp ⟨status, statusText, body⟩) reason).result =
      (fetchTopHeadlines apiKey fromIso
        (.resp ⟨status, statusText, body⟩)).result := by
  have h4 := topic_check_false topic ht
  have hagree := classify_core_agree status statusText (reason status)
    body data hp hs
  constructor
  · have hhandler : handler "GET"
        [("endpoint", "everything"), ("q", topic), ("pageSize", "10"),
          ("sortBy", "publishedAt"), ("language", "en")] envKey
        (fun _ => .resp ⟨status, statusText, body⟩) =
        ⟨status, stringify data,
          [⟨"everything",
            [("q", topic), ("pageSize", "10"), ("sortBy", "publishedAt"),
              ("language", "en")], envKey⟩]⟩ := by
      rw [handler_valid_shape
        [("endpoint", "everything"), ("q", topic), ("pageSize", "10"),
          ("sortBy", "publishedAt"), ("language", "en")] envKey
        (fun _ => .resp ⟨status, statusText, body⟩) "everything" rfl (by decide)]
      simp [hp]
    have hprox : (fetchNewsProxied topic envKey
        (fun _ => .resp ⟨status, statusText, body⟩) reason).result =
        catchNetwork (classifyOutcome
          (.resp ⟨status, reason status, stringify data⟩)) := by
      simp only [fetchNewsProxied, h4, Bool.false_eq_true, if_false, hhandler]
    have hdir : (fetchNews apiKey topic
        (.resp ⟨status, statusText, body⟩)).result =
        catchNetwork (classifyOutcome (.resp ⟨status, statusText, body⟩)) := by
      simp [fetchNews, hk, h4]
    rw [hprox, hdir, hagree]
  · have hhandler2 : handler "GET"
        [("endpoint", "top-headlines"), ("country", "us"), ("pageSize", "10"),
          ("from", fromIso)] envKey
        (fun _ => .resp ⟨status, statusText, body⟩) =
        ⟨status, stringify data,
          [⟨"top-headlines",
            [("country", "us"), ("pageSize", "10"), ("from", fromIso)],
            envKey⟩]⟩ := by
      rw [handler_valid_shape
        [("endpoint", "top-headlines"), ("country", "us"), ("pageSize", "10"),
          ("from", fromIso)] envKey
        (fun _ => .resp ⟨status, statusText, body⟩) "top-headlines" rfl
        (by decide)]
      simp [hp]
    have hprox2 : (fetchTopHeadlinesProxied fromIso envKey
        (fun _ => .resp ⟨status, statusText, body⟩) reason).result =
        catchNetwork (classifyOutcome
          (.resp ⟨status, reason status, stringify data⟩)) := by
      simp only [fetchTopHeadlinesProxied, hhandler2]
    have hdir2 : (fetchTopHeadlines apiKey fromIso
        (.resp ⟨status, statusText, body⟩)).result =
        catchNetwork (classifyOutcome (.resp ⟨status, statusText, body⟩)) := by
      simp [fetchTopHeadlines, hk]
    rw [hprox2, hdir2, hagree]

/-- Witness for C5 (amended) at a concrete 200 response with one
article, in both Topic and TopHeadlines modes, with an arbitrary proxy
reason phrase. -/
theorem strategies_agree_witness :
    (fetchNewsProxied "news" (some "serverKey")
        (fun _ => .resp ⟨200, "OK",
          "\x7b\"articles\": [\x7b\"title\": \"a\"\x7d]\x7d"⟩)
        (fun _ => "OK")).result =
      (fetchNews (some "clientKey") "news"
        (.resp ⟨200, "OK",
          "\x7b\"articles\": [\x7b\"title\": \"a\"\x7d]\x7d"⟩)).result ∧
    (fetchTopHeadlinesProxied "2026-10-10T00:00:00.000Z" (some "serverKey")
        (fun _ => .resp ⟨200, "OK",
          "\x7b\"articles\": [\x7b\"title\": \"a\"\x7d]\x7d"⟩)
        (fun _ => "OK")).result =
      (fetchTopHeadlines (some "clientKey") "2026-10-10T00:00:00.000Z"
        (.resp ⟨200, "OK",
          "\x7b\"articles\": [\x7b\"title\": \"a\"\x7d]\x7d"⟩)).result :=
  strategies_agree_on_core_statuses (some "clientKey") (some "serverKey")
    "news" "2026-10-10T00:00:00.000Z" (fun _ => "OK") 200 "OK"
    "\x7b\"articles\": [\x7b\"title\": \"a\"\x7d]\x7d"
    (.obj (.cons "articles"
      (.arr (.cons (.obj (.cons "title" (.str "a") .nil)) .nil)) .nil))
    (by decide) (by decide) (by rfl) (by omega)
